import Mathlib

/-!
# Verification of the chain-state commit pipeline (`chain_update.rs`)

A shallow embedding of `chain/chain/src/chain_update.rs` from the nearcore
repository.  Pure computations of the source are translated into Lean
functions; the transactional store is modelled as an explicit state value
(`ChainStoreUpdate`) holding the three head tips plus a chronological list of
staged write operations; every external collaborator (epoch manager, flat
storage manager, runtime adapter, and the read side of the chain store) is
modelled at its interface boundary as a record of oracle functions (`Env`)
whose fallible calls return `Except ChainError`.  Rust panics (`assert_eq!`,
`todo!`, division by zero, `unwrap`) are modelled as the distinguished error
`ChainError.fatal`, distinct from recoverable storage errors.

Machine integers (`u64` gas, `u128` balance) are modelled as `Nat`: every
arithmetic operation performed by the embedded code keeps values bounded by
the parent totals (the redistribution only splits an existing `u64`/`u128`
into smaller summands), so no wrap-around can occur and `Nat` is faithful.
-/

/-- Content hash of a block (`CryptoHash`).  `0` plays the role of
`CryptoHash::default()`. -/
abbrev CryptoHash := Nat

abbrev BlockHeight := Nat
abbrev ShardId := Nat
abbrev EpochId := Nat
abbrev AccountId := Nat
abbrev Gas := Nat
abbrev Balance := Nat
abbrev NumShards := Nat

/-- Opaque trie change set produced by chunk application. -/
abbrev TrieChanges := Nat
/-- Opaque raw state changes (`trie_changes.state_changes()`). -/
abbrev StateChanges := Nat
/-- Opaque mergeable store update produced by an external collaborator. -/
abbrev StoreUpdate := Nat
/-- Opaque execution outcome. -/
abbrev Outcome := Nat
/-- Opaque proof paths for outcomes. -/
abbrev OutcomePaths := Nat
/-- Opaque recorded storage proof. -/
abbrev PartialState := Nat
/-- Opaque light client block view. -/
abbrev LightClientBlockView := Nat

/-- `TrieChanges::state_changes()` — the raw state changes carried inside a
trie change set; opaque in this model. -/
def TrieChanges.state_changes (tc : TrieChanges) : StateChanges := tc

/-- `ShardUId`: shard identity = (shard layout version, shard index);
`#[derive(Ord)]` in Rust gives the lexicographic order on (version, shard_id). -/
structure ShardUId where
  version : Nat
  shard_id : Nat
deriving DecidableEq, Repr

/-- The derived Rust `Ord` on `ShardUId`: lexicographic on (version, shard_id). -/
def ShardUId.le (a b : ShardUId) : Prop :=
  a.version < b.version ∨ (a.version = b.version ∧ a.shard_id ≤ b.shard_id)

instance : DecidableRel ShardUId.le := by
  intro a b
  unfold ShardUId.le
  infer_instance

theorem ShardUId.le_total (a b : ShardUId) : ShardUId.le a b ∨ ShardUId.le b a := by
  rcases Nat.lt_trichotomy a.version b.version with h | h | h
  · exact Or.inl (Or.inl h)
  · rcases Nat.le_total a.shard_id b.shard_id with h2 | h2
    · exact Or.inl (Or.inr ⟨h, h2⟩)
    · exact Or.inr (Or.inr ⟨h.symm, h2⟩)
  · exact Or.inr (Or.inl h)

theorem ShardUId.le_trans {a b c : ShardUId}
    (hab : ShardUId.le a b) (hbc : ShardUId.le b c) : ShardUId.le a c := by
  rcases hab with h | ⟨he, hs⟩
  · rcases hbc with h2 | ⟨he2, _⟩
    · exact Or.inl (Nat.lt_trans h h2)
    · exact Or.inl (he2 ▸ h)
  · rcases hbc with h2 | ⟨he2, hs2⟩
    · exact Or.inl (he ▸ h2)
    · exact Or.inr ⟨he.trans he2, Nat.le_trans hs hs2⟩

theorem ShardUId.le_antisymm {a b : ShardUId}
    (hab : ShardUId.le a b) (hba : ShardUId.le b a) : a = b := by
  rcases hab with h | ⟨he, hs⟩
  · rcases hba with h2 | ⟨he2, _⟩
    · exact absurd (Nat.lt_trans h h2) (Nat.lt_irrefl _)
    · exact absurd h (he2 ▸ Nat.lt_irrefl _)
  · rcases hba with h2 | ⟨_, hs2⟩
    · exact absurd h2 (he ▸ Nat.lt_irrefl _)
    · cases a; cases b
      simp only at he hs hs2
      simp [he, Nat.le_antisymm hs hs2]

/-- A validator stake-change proposal emitted by shard execution; only its
`account_id` is inspected by this pipeline (for routing to a child shard). -/
structure ValidatorStake where
  account_id : AccountId
  stake : Nat
deriving DecidableEq, Repr

/-- `ChunkExtra`: committed post-state of one shard after one block. -/
structure ChunkExtra where
  state_root : CryptoHash
  outcome_root : CryptoHash
  validator_proposals : List ValidatorStake
  gas_used : Gas
  gas_limit : Gas
  balance_burnt : Balance
  congestion_info : Option Nat
deriving DecidableEq, Repr

/-- `BlockHeader`: the header fields this pipeline reads. -/
structure BlockHeader where
  hash : CryptoHash
  height : BlockHeight
  prev_hash : CryptoHash
  epoch_id : EpochId
  last_final_block : CryptoHash
deriving DecidableEq, Repr

/-- `Block`: header plus the block-level congestion info consulted when
re-applying a chunk (opaque here). -/
structure Block where
  header : BlockHeader
  block_congestion_info : Nat
deriving DecidableEq, Repr

/-- `block.hash()` delegates to the header hash. -/
def Block.hash (b : Block) : CryptoHash := b.header.hash

/-- `Tip`: a chain-position pointer (hash, height, epoch id). -/
structure Tip where
  height : BlockHeight
  last_block_hash : CryptoHash
  prev_block_hash : CryptoHash
  epoch_id : EpochId
deriving DecidableEq, Repr

/-- `Tip::from_header`. -/
def Tip.from_header (h : BlockHeader) : Tip :=
  { height := h.height
    last_block_hash := h.hash
    prev_block_hash := h.prev_hash
    epoch_id := h.epoch_id }

/-- Errors of the pipeline.  `dbNotFound` models `Error::DBNotFoundErr`;
`other` models every other recoverable storage/validation error; `fatal`
models a Rust panic (`assert_eq!`, `todo!`, `unwrap`, division by zero). -/
inductive ChainError where
  | dbNotFound
  | other
  | fatal
deriving DecidableEq, Repr

/-- One staged write operation of the transactional store.  The
`ChainStoreUpdate` accumulates these in chronological order; `commit` (outside
this model) makes them durable all at once. -/
inductive StageOp where
  | saveChunkExtra (block_hash : CryptoHash) (shard_uid : ShardUId) (extra : ChunkExtra)
  | saveTrieChanges (tc : TrieChanges)
  | mergeUpdate (u : StoreUpdate)
  | flatStorageAdvanced (shard_uid : ShardUId) (final_hash : CryptoHash)
  | addStateChangesForResharding (block_hash : CryptoHash) (shard_id : ShardId)
      (changes : StateChanges)
  | saveOutgoingReceipt (block_hash : CryptoHash) (shard_id : ShardId) (receipts : Nat)
  | saveOutcomesWithProofs (block_hash : CryptoHash) (shard_id : ShardId)
      (outcomes : List Outcome) (paths : OutcomePaths)
  | saveStateTransitionData (block_hash : CryptoHash) (shard_id : ShardId)
      (proof : PartialState) (applied_receipts_hash : CryptoHash)
  | addBlockToCatchup (prev_hash : CryptoHash) (block_hash : CryptoHash)
  | saveIncomingReceipt (block_hash : CryptoHash) (shard_id : ShardId) (proofs : Nat)
  | addStateSyncInfo (info : Nat)
  | saveBlockExtra (block_hash : CryptoHash) (challenges_result : Nat)
  | saveChallengedBlock (block_hash : CryptoHash)
  | saveBlockHeader (header : BlockHeader)
  | saveBlock (block : Block)
  | incBlockRefcount (block_hash : CryptoHash)
  | saveNextBlockHash (prev_hash : CryptoHash) (hash : CryptoHash)
  | saveEpochLightClientBlock (epoch_id : EpochId) (view : LightClientBlockView)
deriving DecidableEq, Repr

/-- The in-flight transaction: the three head tips (read-modify-write state)
plus the chronological list of other staged writes. -/
structure ChainStoreUpdate where
  headerHead : Tip
  bodyHead : Tip
  finalHead : Tip
  staged : List StageOp
deriving DecidableEq, Repr

/-- Stage one write operation. -/
def ChainStoreUpdate.stage (s : ChainStoreUpdate) (op : StageOp) : ChainStoreUpdate :=
  { s with staged := s.staged ++ [op] }

/-- A shard layout resolved from the epoch manager: routes an account id to
its owning shard identity, and lists the children of a parent shard. -/
structure ShardLayout where
  account_id_to_shard_uid : AccountId → ShardUId
  get_children_shards_uids : ShardId → Option (List ShardUId)

/-- The result of applying one chunk (`ApplyChunkResult`), as consumed by
this pipeline. -/
structure ApplyChunkResult where
  new_root : CryptoHash
  outcomes : List Outcome
  validator_proposals : List ValidatorStake
  total_gas_burnt : Gas
  total_balance_burnt : Balance
  congestion_info : Option Nat
  trie_changes : TrieChanges
  outgoing_receipts : Nat
  proof : PartialState
  applied_receipts_hash : CryptoHash
deriving DecidableEq, Repr

/-- One fully-applied child-shard result inside
`ReshardingResults::ApplyReshardingResults` (the fields this pipeline reads). -/
structure ApplyResultForResharding where
  shard_uid : ShardUId
  new_root : CryptoHash
  trie_changes : TrieChanges
deriving DecidableEq, Repr

/-- `ReshardingResults`: apply results to redistribute, or raw state changes
to store for later replay. -/
inductive ReshardingResults where
  | ApplyReshardingResults (results : List ApplyResultForResharding)
  | StoreReshardingResults (state_changes : StateChanges)
deriving DecidableEq, Repr

/-- `NewChunkResult`. -/
structure NewChunkResult where
  gas_limit : Gas
  shard_uid : ShardUId
  apply_result : ApplyChunkResult
  resharding_results : Option ReshardingResults
deriving DecidableEq, Repr

/-- `OldChunkResult`. -/
structure OldChunkResult where
  shard_uid : ShardUId
  apply_result : ApplyChunkResult
  resharding_results : Option ReshardingResults
deriving DecidableEq, Repr

/-- `ReshardingResult`. -/
structure ReshardingResult where
  shard_uid : ShardUId
  results : List ApplyResultForResharding
deriving DecidableEq, Repr

/-- `ShardUpdateResult`: tagged union of per-shard apply outcomes. -/
inductive ShardUpdateResult where
  | NewChunk (r : NewChunkResult)
  | OldChunk (r : OldChunkResult)
  | Resharding (r : ReshardingResult)
deriving DecidableEq, Repr

/-- `BlockPreprocessInfo` (the fields `postprocess_block` destructures). -/
structure BlockPreprocessInfo where
  is_caught_up : Bool
  state_sync_info : Option Nat
  incoming_receipts : List (ShardId × Nat)
  challenges_result : Nat
  challenged_blocks : List CryptoHash
deriving DecidableEq, Repr

/-- The external collaborators of the pipeline, modelled at their interface
boundary: the read side of the chain store, the epoch manager, the flat
storage manager and the runtime adapter.  Reads are oracles fixed for the
lifetime of one transaction. -/
structure Env where
  get_block_header : CryptoHash → Except ChainError BlockHeader
  get_block_hash_by_height : BlockHeight → Except ChainError CryptoHash
  get_block_header_on_chain_by_height :
      CryptoHash → BlockHeight → Except ChainError BlockHeader
  get_block : CryptoHash → Except ChainError Block
  get_chunk_extra : CryptoHash → ShardUId → Except ChainError ChunkExtra
  get_genesis_height : BlockHeight
  get_next_epoch_id_from_prev_block : CryptoHash → Except ChainError EpochId
  get_epoch_id_from_prev_block : CryptoHash → Except ChainError EpochId
  get_shard_layout : EpochId → Except ChainError ShardLayout
  get_shard_layout_from_prev_block : CryptoHash → Except ChainError ShardLayout
  get_epoch_protocol_version : EpochId → Except ChainError Nat
  shard_id_to_uid : ShardId → EpochId → Except ChainError ShardUId
  add_validator_proposals : BlockHeader → BlockHeight → Except ChainError StoreUpdate
  congestion_control_enabled : Nat → Bool
  save_flat_state_changes :
      CryptoHash → CryptoHash → BlockHeight → ShardUId → StateChanges →
      Except ChainError StoreUpdate
  update_flat_storage_for_shard : ShardUId → CryptoHash → Except ChainError Unit
  compute_outcomes_proof : List Outcome → CryptoHash × OutcomePaths
  apply_chunk_old :
      ChunkExtra → BlockHeader → BlockHeader → Nat → Except ChainError ApplyChunkResult
  save_block_header : BlockHeader → Except ChainError Unit
  inc_block_refcount : CryptoHash → Except ChainError Unit
  create_light_client_block_view : BlockHeader → Except ChainError LightClientBlockView

/-! ## Resharding Redistributor (`process_resharding_results`) -/

/-- The sort key order used by `results.sort_unstable_by_key(|r| r.shard_uid)`:
compare child apply results by their shard identity. -/
def reshardingLe (a b : ApplyResultForResharding) : Prop :=
  ShardUId.le a.shard_uid b.shard_uid

instance : DecidableRel reshardingLe := by
  intro a b
  unfold reshardingLe
  infer_instance

instance : IsTotal ApplyResultForResharding reshardingLe :=
  ⟨fun a b => ShardUId.le_total a.shard_uid b.shard_uid⟩

instance : IsTrans ApplyResultForResharding reshardingLe :=
  ⟨fun _ _ _ => ShardUId.le_trans⟩

/-- `results.sort_unstable_by_key(|r| r.shard_uid)`.  Rust's unstable sort is
unspecified on equal keys; within this pipeline the child results carry
pairwise distinct shard identities, where every correct sort agrees. -/
def sortReshardingResults (results : List ApplyResultForResharding) :
    List ApplyResultForResharding :=
  List.insertionSort reshardingLe results

/-- The bucket of `validator_proposals_by_shard` for one child shard: the
parent's proposals whose account id routes to that child under the next
epoch's shard layout (in the parent's iteration order). -/
def validator_proposals_for (layout : ShardLayout) (proposals : List ValidatorStake)
    (uid : ShardUId) : List ValidatorStake :=
  proposals.filter fun p => layout.account_id_to_shard_uid p.account_id = uid

/-- The per-child loop of `process_resharding_results` (source lines 179-244):
walks the sorted child results carrying the gas and balance remainders, the
set of shard uids whose proposal bucket was already removed from the map
(`HashMap::remove` semantics: a second child with the same uid receives the
default empty list), and the running `sum_gas_used` / `sum_balance_burnt`. -/
def reshardingLoop (env : Env) (layout : ShardLayout) (protocol_version : Nat)
    (parent_proposals : List ValidatorStake) (gas_split : Gas) (balance_split : Balance)
    (gas_limit : Gas) (outcome_root : CryptoHash) (block_hash prev_hash : CryptoHash)
    (height : BlockHeight) (last_final_block_hash : CryptoHash) :
    List ApplyResultForResharding → Nat → Nat → List ShardUId → ChainStoreUpdate →
    Nat → Nat → Except ChainError (ChainStoreUpdate × Nat × Nat)
  | [], _, _, _, s, sum_gas, sum_bal => .ok (s, sum_gas, sum_bal)
  | result :: rest, gas_res, balance_res, taken, s, sum_gas, sum_bal => do
    let gas_burnt := if gas_res > 0 then gas_split + 1 else gas_split
    let gas_res := if gas_res > 0 then gas_res - 1 else gas_res
    let balance_burnt := if balance_res > 0 then balance_split + 1 else balance_split
    let balance_res := if balance_res > 0 then balance_res - 1 else balance_res
    -- `todo!("implement resharding and congestion control integration")`
    if env.congestion_control_enabled protocol_version then
      .error .fatal
    else do
      let proposals :=
        if result.shard_uid ∈ taken then []
        else validator_proposals_for layout parent_proposals result.shard_uid
      let new_chunk_extra : ChunkExtra :=
        { state_root := result.new_root
          outcome_root := outcome_root
          validator_proposals := proposals
          gas_used := gas_burnt
          gas_limit := gas_limit
          balance_burnt := balance_burnt
          congestion_info := none }
      let store_update ← env.save_flat_state_changes block_hash prev_hash height
        result.shard_uid result.trie_changes.state_changes
      let s ←
        if last_final_block_hash ≠ 0 then do
          let _ ← env.update_flat_storage_for_shard result.shard_uid last_final_block_hash
          pure (s.stage (.flatStorageAdvanced result.shard_uid last_final_block_hash))
        else pure s
      let s := s.stage (.mergeUpdate store_update)
      let s := s.stage (.saveChunkExtra block_hash result.shard_uid new_chunk_extra)
      let s := s.stage (.saveTrieChanges result.trie_changes)
      reshardingLoop env layout protocol_version parent_proposals gas_split balance_split
        gas_limit outcome_root block_hash prev_hash height last_final_block_hash
        rest gas_res balance_res (result.shard_uid :: taken) s
        (sum_gas + gas_burnt) (sum_bal + balance_burnt)

/-- `process_resharding_results` (source lines 100-258).  Rust panics are
modelled as `ChainError.fatal`: the `unwrap_or_else(panic!)` on a missing
children list, the division/remainder by zero when the children list is
empty, the `assert_eq!(num_split_shards, results.len())` before the loop, the
`todo!` on the congestion-control feature inside the loop, and the two
`assert_eq!` sum checks after it. -/
def process_resharding_results (env : Env) (s : ChainStoreUpdate) (block : Block)
    (shard_uid : ShardUId) (resharding_results : ReshardingResults) :
    Except ChainError ChainStoreUpdate := do
  let block_hash := block.hash
  let prev_hash := block.header.prev_hash
  let height := block.header.height
  match resharding_results with
  | .ApplyReshardingResults results => do
    -- Sort the results so that the gas reassignment is deterministic.
    let results := sortReshardingResults results
    let chunk_extra ← env.get_chunk_extra block_hash shard_uid
    let next_epoch_id ← env.get_next_epoch_id_from_prev_block prev_hash
    let next_epoch_shard_layout ← env.get_shard_layout next_epoch_id
    let children ←
      match next_epoch_shard_layout.get_children_shards_uids shard_uid.shard_id with
      | some cs => pure cs
      | none => .error .fatal
    let num_split_shards : NumShards := children.length
    if num_split_shards = 0 then
      -- Rust: `total_gas_used % 0` panics.
      .error .fatal
    else do
      let total_gas_used := chunk_extra.gas_used
      let total_balance_burnt := chunk_extra.balance_burnt
      let gas_res := total_gas_used % num_split_shards
      let gas_split := total_gas_used / num_split_shards
      let balance_res := total_balance_burnt % num_split_shards
      let balance_split := total_balance_burnt / num_split_shards
      let gas_limit := chunk_extra.gas_limit
      let outcome_root := chunk_extra.outcome_root
      if num_split_shards ≠ results.length then
        -- `assert_eq!(num_split_shards, results.len() as u64)`
        .error .fatal
      else do
        let epoch_id ← env.get_epoch_id_from_prev_block prev_hash
        let protocol_version ← env.get_epoch_protocol_version epoch_id
        let (s, sum_gas_used, sum_balance_burnt) ←
          reshardingLoop env next_epoch_shard_layout protocol_version
            chunk_extra.validator_proposals gas_split balance_split gas_limit outcome_root
            block_hash prev_hash height block.header.last_final_block
            results gas_res balance_res [] s 0 0
        if sum_gas_used ≠ total_gas_used then
          .error .fatal
        else if sum_balance_burnt ≠ total_balance_burnt then
          .error .fatal
        else
          .ok s
  | .StoreReshardingResults state_changes =>
    .ok (s.stage (.addStateChangesForResharding block_hash shard_uid.shard_id state_changes))

/-- The gas assigned to the child `ChunkExtra` records staged by a list of
operations, in order. -/
def childGasList (ops : List StageOp) : List Nat :=
  ops.filterMap fun op =>
    match op with
    | .saveChunkExtra _ _ e => some e.gas_used
    | _ => none

/-- The balance assigned to the child `ChunkExtra` records staged by a list
of operations, in order. -/
def childBalanceList (ops : List StageOp) : List Nat :=
  ops.filterMap fun op =>
    match op with
    | .saveChunkExtra _ _ e => some e.balance_burnt
    | _ => none


/-! ### Proof layer for the redistribution loop -/

/-- The `ChunkExtra` built for one child inside the redistribution loop,
given the remainders still pending when that child is reached. -/
def reshardChildExtra (layout : ShardLayout) (pp : List ValidatorStake)
    (gas_split balance_split gas_limit : Nat) (oroot : CryptoHash)
    (taken : List ShardUId) (gr br : Nat) (r : ApplyResultForResharding) : ChunkExtra :=
  { state_root := r.new_root
    outcome_root := oroot
    validator_proposals :=
      if r.shard_uid ∈ taken then []
      else validator_proposals_for layout pp r.shard_uid
    gas_used := if gr > 0 then gas_split + 1 else gas_split
    gas_limit := gas_limit
    balance_burnt := if br > 0 then balance_split + 1 else balance_split
    congestion_info := none }

/-- The operations staged for one child inside the redistribution loop. -/
def reshardChildOps (layout : ShardLayout) (pp : List ValidatorStake)
    (gas_split balance_split gas_limit : Nat) (oroot bh : CryptoHash) (lfb : Nat)
    (taken : List ShardUId) (gr br : Nat) (u : StoreUpdate)
    (r : ApplyResultForResharding) : List StageOp :=
  (if lfb ≠ 0 then [StageOp.flatStorageAdvanced r.shard_uid lfb] else []) ++
    [StageOp.mergeUpdate u,
     StageOp.saveChunkExtra bh r.shard_uid
       (reshardChildExtra layout pp gas_split balance_split gas_limit oroot taken gr br r),
     StageOp.saveTrieChanges r.trie_changes]

/-- One step of `reshardingLoop` on a non-empty list, with the congestion
feature disabled and both flat-storage calls succeeding. -/
theorem reshardingLoop_cons (env : Env) (layout : ShardLayout) (pv : Nat)
    (pp : List ValidatorStake) (gas_split balance_split gas_limit : Nat)
    (oroot bh ph : CryptoHash) (height lfb : Nat)
    (r : ApplyResultForResharding) (rest : List ApplyResultForResharding)
    (gr br : Nat) (taken : List ShardUId) (s : ChainStoreUpdate) (g b : Nat)
    (u : StoreUpdate)
    (hcc : env.congestion_control_enabled pv = false)
    (hu : env.save_flat_state_changes bh ph height r.shard_uid
        r.trie_changes.state_changes = Except.ok u)
    (hupd : env.update_flat_storage_for_shard r.shard_uid lfb = Except.ok ()) :
    reshardingLoop env layout pv pp gas_split balance_split gas_limit oroot
        bh ph height lfb (r :: rest) gr br taken s g b =
      reshardingLoop env layout pv pp gas_split balance_split gas_limit oroot
        bh ph height lfb rest (gr - 1) (br - 1) (r.shard_uid :: taken)
        { s with staged := s.staged ++
            (reshardChildOps layout pp gas_split balance_split gas_limit oroot bh lfb
              taken gr br u r) }
        (g + (if gr > 0 then gas_split + 1 else gas_split))
        (b + (if br > 0 then balance_split + 1 else balance_split)) := by
  rw [reshardingLoop]
  have hgr : (if gr > 0 then gr - 1 else gr) = gr - 1 := by split <;> omega
  have hbr : (if br > 0 then br - 1 else br) = br - 1 := by split <;> omega
  by_cases hlfb : lfb = 0
  · subst hlfb
    simp [hcc, hu, hgr, hbr, reshardChildOps, reshardChildExtra, ChainStoreUpdate.stage,
      Bind.bind, Except.bind, Pure.pure, Except.pure]
  · simp [hcc, hu, hupd, hlfb, hgr, hbr, reshardChildOps, reshardChildExtra,
      ChainStoreUpdate.stage, Bind.bind, Except.bind, Pure.pure, Except.pure]

/-- The redistribution quota list: the child at position `k` of the sorted
order receives the integer quotient `q`, plus one extra unit while the
remainder `r` is not yet depleted (i.e. for the first `r` positions). -/
def quotaList (q r n : Nat) : List Nat :=
  (List.range n).map fun k => q + if k < r then 1 else 0

theorem quotaList_cons (q r n : Nat) :
    quotaList q r (n + 1) = (if r > 0 then q + 1 else q) :: quotaList q (r - 1) n := by
  unfold quotaList
  rw [List.range_succ_eq_map, List.map_cons, List.map_map]
  congr 1
  · by_cases h : 0 < r <;> simp [h]
  · refine List.map_congr_left fun k _ => ?_
    simp only [Function.comp_apply, Nat.succ_eq_add_one]
    congr 1
    by_cases h : k + 1 < r <;> by_cases h2 : k < r - 1 <;> simp [h, h2] <;> omega

theorem quotaList_sum (q r n : Nat) : (quotaList q r n).sum = n * q + min r n := by
  induction n generalizing r with
  | zero => simp [quotaList]
  | succ n ih =>
    rw [quotaList_cons, List.sum_cons, ih]
    rcases r with _ | r'
    · simp
      ring
    · rw [if_pos (Nat.succ_pos r'), Nat.succ_sub_one, Nat.succ_min_succ, Nat.succ_mul,
        Nat.succ_eq_add_one]
      ring

theorem childGasList_append (a b : List StageOp) :
    childGasList (a ++ b) = childGasList a ++ childGasList b :=
  List.filterMap_append a b _

theorem childBalanceList_append (a b : List StageOp) :
    childBalanceList (a ++ b) = childBalanceList a ++ childBalanceList b :=
  List.filterMap_append a b _

theorem childGasList_reshardChildOps (layout : ShardLayout) (pp : List ValidatorStake)
    (gas_split balance_split gas_limit : Nat) (oroot bh : CryptoHash) (lfb : Nat)
    (taken : List ShardUId) (gr br : Nat) (u : StoreUpdate)
    (r : ApplyResultForResharding) :
    childGasList (reshardChildOps layout pp gas_split balance_split gas_limit oroot bh lfb
        taken gr br u r) = [if gr > 0 then gas_split + 1 else gas_split] := by
  by_cases h : lfb = 0 <;>
    simp [reshardChildOps, reshardChildExtra, childGasList, h]

theorem childBalanceList_reshardChildOps (layout : ShardLayout) (pp : List ValidatorStake)
    (gas_split balance_split gas_limit : Nat) (oroot bh : CryptoHash) (lfb : Nat)
    (taken : List ShardUId) (gr br : Nat) (u : StoreUpdate)
    (r : ApplyResultForResharding) :
    childBalanceList (reshardChildOps layout pp gas_split balance_split gas_limit oroot bh lfb
        taken gr br u r) = [if br > 0 then balance_split + 1 else balance_split] := by
  by_cases h : lfb = 0 <;>
    simp [reshardChildOps, reshardChildExtra, childBalanceList, h]

/-- The redistribution loop, run on any child list with the congestion
feature disabled and the flat-storage collaborator succeeding, completes
normally; it stages exactly one child `ChunkExtra` per result whose gas and
balance follow the quota list, and returns the accumulated sums. -/
theorem reshardingLoop_ok (env : Env) (layout : ShardLayout) (pv : Nat)
    (pp : List ValidatorStake) (gas_split balance_split gas_limit : Nat)
    (oroot bh ph : CryptoHash) (height lfb : Nat)
    (hcc : env.congestion_control_enabled pv = false)
    (hflat : ∀ a b c d e, ∃ u, env.save_flat_state_changes a b c d e = Except.ok u)
    (hupd : ∀ a b, env.update_flat_storage_for_shard a b = Except.ok ()) :
    ∀ (rs : List ApplyResultForResharding) (gr br : Nat) (taken : List ShardUId)
      (s : ChainStoreUpdate) (g b : Nat),
      ∃ ops : List StageOp,
        reshardingLoop env layout pv pp gas_split balance_split gas_limit oroot
            bh ph height lfb rs gr br taken s g b =
          Except.ok ({ s with staged := s.staged ++ ops },
            g + (quotaList gas_split gr rs.length).sum,
            b + (quotaList balance_split br rs.length).sum) ∧
        childGasList ops = quotaList gas_split gr rs.length ∧
        childBalanceList ops = quotaList balance_split br rs.length := by
  intro rs
  induction rs with
  | nil =>
    intro gr br taken s g b
    exact ⟨[], by simp [reshardingLoop, quotaList, childGasList, childBalanceList]⟩
  | cons r rest ih =>
    intro gr br taken s g b
    obtain ⟨u, hu⟩ := hflat bh ph height r.shard_uid r.trie_changes.state_changes
    rw [reshardingLoop_cons env layout pv pp gas_split balance_split gas_limit oroot
      bh ph height lfb r rest gr br taken s g b u hcc hu (hupd _ _)]
    obtain ⟨ops, hl, hg, hb⟩ := ih (gr - 1) (br - 1) (r.shard_uid :: taken)
      { s with staged := s.staged ++
          (reshardChildOps layout pp gas_split balance_split gas_limit oroot bh lfb
            taken gr br u r) }
      (g + (if gr > 0 then gas_split + 1 else gas_split))
      (b + (if br > 0 then balance_split + 1 else balance_split))
    refine ⟨(reshardChildOps layout pp gas_split balance_split gas_limit oroot bh lfb
        taken gr br u r) ++ ops, ?_, ?_, ?_⟩
    · rw [hl]
      refine congrArg Except.ok (congrArg₂ Prod.mk ?_ (congrArg₂ Prod.mk ?_ ?_))
      · simp [List.append_assoc]
      · rw [List.length_cons, quotaList_cons, List.sum_cons, Nat.add_assoc]
      · rw [List.length_cons, quotaList_cons, List.sum_cons, Nat.add_assoc]
    · rw [childGasList_append, hg, List.length_cons, quotaList_cons,
        childGasList_reshardChildOps]
      rfl
    · rw [childBalanceList_append, hb, List.length_cons, quotaList_cons,
        childBalanceList_reshardChildOps]
      rfl

/-- Master lemma: on the normal path (parent extra and epoch data resolvable,
the next layout lists as many children as there are results, at least one
child, congestion control disabled, flat storage succeeding),
`process_resharding_results` on `ApplyReshardingResults` completes normally
and stages one child `ChunkExtra` per result, whose gas and balance follow
the integer-division quota list of the parent totals. -/
theorem process_resharding_apply_ok (env : Env) (s : ChainStoreUpdate) (block : Block)
    (shard_uid : ShardUId) (results : List ApplyResultForResharding)
    (parent : ChunkExtra) (nepid epid : EpochId) (layout : ShardLayout)
    (children : List ShardUId) (pv : Nat)
    (h1 : env.get_chunk_extra block.hash shard_uid = Except.ok parent)
    (h2 : env.get_next_epoch_id_from_prev_block block.header.prev_hash = Except.ok nepid)
    (h3 : env.get_shard_layout nepid = Except.ok layout)
    (h4 : layout.get_children_shards_uids shard_uid.shard_id = some children)
    (h5 : children.length = results.length)
    (h6 : results ≠ [])
    (h7 : env.get_epoch_id_from_prev_block block.header.prev_hash = Except.ok epid)
    (h8 : env.get_epoch_protocol_version epid = Except.ok pv)
    (hcc : env.congestion_control_enabled pv = false)
    (hflat : ∀ a b c d e, ∃ u, env.save_flat_state_changes a b c d e = Except.ok u)
    (hupd : ∀ a b, env.update_flat_storage_for_shard a b = Except.ok ()) :
    ∃ ops : List StageOp,
      process_resharding_results env s block shard_uid
          (.ApplyReshardingResults results) =
        Except.ok { s with staged := s.staged ++ ops } ∧
      childGasList ops = quotaList (parent.gas_used / results.length)
          (parent.gas_used % results.length) results.length ∧
      childBalanceList ops = quotaList (parent.balance_burnt / results.length)
          (parent.balance_burnt % results.length) results.length := by
  have hn : results.length ≠ 0 := fun h => h6 (List.length_eq_zero.mp h)
  have hn0 : 0 < results.length := Nat.pos_of_ne_zero hn
  have hsortlen : (sortReshardingResults results).length = results.length :=
    List.length_insertionSort _ _
  obtain ⟨ops, hloop, hg, hb⟩ := reshardingLoop_ok env layout pv
    parent.validator_proposals (parent.gas_used / results.length)
    (parent.balance_burnt / results.length) parent.gas_limit parent.outcome_root
    block.hash block.header.prev_hash block.header.height block.header.last_final_block
    hcc hflat hupd (sortReshardingResults results)
    (parent.gas_used % results.length) (parent.balance_burnt % results.length)
    [] s 0 0
  refine ⟨ops, ?_, ?_, ?_⟩
  · simp only [process_resharding_results, h1, h2, h3, h4, h7, h8, Bind.bind, Except.bind,
      Pure.pure, Except.pure, hsortlen, h5]
    rw [if_neg hn]
    rw [if_neg (by omega : ¬ results.length ≠ results.length)]
    rw [hloop]
    have hgs : (quotaList (parent.gas_used / results.length)
        (parent.gas_used % results.length) (sortReshardingResults results).length).sum =
        parent.gas_used := by
      rw [hsortlen, quotaList_sum, Nat.min_eq_left (Nat.le_of_lt (Nat.mod_lt _ hn0))]
      exact Nat.div_add_mod _ _
    have hbs : (quotaList (parent.balance_burnt / results.length)
        (parent.balance_burnt % results.length) (sortReshardingResults results).length).sum =
        parent.balance_burnt := by
      rw [hsortlen, quotaList_sum, Nat.min_eq_left (Nat.le_of_lt (Nat.mod_lt _ hn0))]
      exact Nat.div_add_mod _ _
    simp only [Nat.zero_add, hgs, hbs]
    simp
  · rw [hg, hsortlen]
  · rw [hb, hsortlen]

/-- Two lists of child apply results that are permutations of each other,
both sorted by shard identity, and whose shard identities are pairwise
distinct, are equal.  (`reshardingLe` compares only the keys, so it is not
antisymmetric on the elements; distinctness of the keys substitutes.) -/
theorem sorted_perm_nodup_eq :
    ∀ {l₁ l₂ : List ApplyResultForResharding}, l₁.Perm l₂ →
      l₁.Sorted reshardingLe → l₂.Sorted reshardingLe →
      (l₁.map ApplyResultForResharding.shard_uid).Nodup → l₁ = l₂ := by
  intro l₁
  induction l₁ with
  | nil =>
    intro l₂ hp _ _ _
    exact (hp.nil_eq).symm ▸ rfl
  | cons a t₁ ih =>
    intro l₂ hp hs₁ hs₂ hnd
    cases l₂ with
    | nil => exact absurd hp.symm.nil_eq (by simp)
    | cons b t₂ =>
      have hab : a = b := by
        by_contra hne
        have ha2 : a ∈ b :: t₂ := hp.subset (by simp)
        have hat2 : a ∈ t₂ := by
          rcases ha2 with _ | h
          · exact absurd rfl hne
          · assumption
        have hb1 : b ∈ a :: t₁ := hp.symm.subset (by simp)
        have hbt1 : b ∈ t₁ := by
          rcases hb1 with _ | h
          · exact absurd rfl (fun h => hne h.symm)
          · assumption
        have hba : reshardingLe b a := ((List.sorted_cons.mp hs₂).1) a hat2
        have hab2 : reshardingLe a b := ((List.sorted_cons.mp hs₁).1) b hbt1
        have hkey : a.shard_uid = b.shard_uid := ShardUId.le_antisymm hab2 hba
        have : a.shard_uid ∉ t₁.map ApplyResultForResharding.shard_uid :=
          (List.nodup_cons.mp hnd).1
        exact this (hkey ▸ List.mem_map_of_mem _ hbt1)
      subst hab
      have := ih hp.cons_inv (List.sorted_cons.mp hs₁).2 (List.sorted_cons.mp hs₂).2
        (List.nodup_cons.mp hnd).2
      rw [this]

/-- Sorting by shard identity is canonical: any two permutations of the same
child results with pairwise distinct shard identities sort to the same list. -/
theorem sortReshardingResults_perm_eq {l₁ l₂ : List ApplyResultForResharding}
    (hp : l₁.Perm l₂) (hnd : (l₁.map ApplyResultForResharding.shard_uid).Nodup) :
    sortReshardingResults l₁ = sortReshardingResults l₂ := by
  have hperm : (sortReshardingResults l₁).Perm (sortReshardingResults l₂) :=
    (List.perm_insertionSort reshardingLe l₁).trans
      (hp.trans (List.perm_insertionSort reshardingLe l₂).symm)
  have hnd1 : ((sortReshardingResults l₁).map ApplyResultForResharding.shard_uid).Nodup :=
    ((List.perm_insertionSort reshardingLe l₁).symm.map _).nodup hnd
  exact sorted_perm_nodup_eq hperm
    (List.sorted_insertionSort reshardingLe l₁)
    (List.sorted_insertionSort reshardingLe l₂) hnd1

/-! ### Concrete fixtures used by witnesses and scenarios -/

def uidParent : ShardUId := ⟨1, 0⟩
def uidA : ShardUId := ⟨2, 0⟩
def uidB : ShardUId := ⟨2, 1⟩
def uidC : ShardUId := ⟨2, 2⟩

def tip0 : Tip := { height := 0, last_block_hash := 0, prev_block_hash := 0, epoch_id := 0 }

def store0 : ChainStoreUpdate :=
  { headerHead := tip0, bodyHead := tip0, finalHead := tip0, staged := [] }

/-- Example parent `ChunkExtra`: 100 gas used, 7 balance burnt. -/
def parentExtraEx : ChunkExtra :=
  { state_root := 5
    outcome_root := 6
    validator_proposals := [⟨10, 100⟩, ⟨11, 50⟩]
    gas_used := 100
    gas_limit := 1000
    balance_burnt := 7
    congestion_info := none }

/-- Example next-epoch shard layout: the parent shard 0 splits into three
children; accounts route to `uidA`/`uidB` by parity. -/
def layoutEx : ShardLayout :=
  { account_id_to_shard_uid := fun a => if a % 2 = 0 then uidA else uidB
    get_children_shards_uids := fun _ => some [uidA, uidB, uidC] }

def blockEx : Block :=
  { header := { hash := 40, height := 12, prev_hash := 39, epoch_id := 3,
                last_final_block := 30 }
    block_congestion_info := 0 }

/-- Example child apply results, deliberately listed out of sorted order. -/
def resultsEx : List ApplyResultForResharding :=
  [⟨uidB, 21, 1⟩, ⟨uidA, 20, 2⟩, ⟨uidC, 22, 3⟩]

def envEx : Env :=
  { get_block_header := fun _ => .error .dbNotFound
    get_block_hash_by_height := fun _ => .error .dbNotFound
    get_block_header_on_chain_by_height := fun _ _ => .error .dbNotFound
    get_block := fun _ => .error .dbNotFound
    get_chunk_extra := fun h u =>
      if h = 40 then if u = uidParent then .ok parentExtraEx else .error .dbNotFound
      else .error .dbNotFound
    get_genesis_height := 0
    get_next_epoch_id_from_prev_block := fun _ => .ok 4
    get_epoch_id_from_prev_block := fun _ => .ok 3
    get_shard_layout := fun _ => .ok layoutEx
    get_shard_layout_from_prev_block := fun _ => .ok layoutEx
    get_epoch_protocol_version := fun _ => .ok 70
    shard_id_to_uid := fun sid _ => .ok ⟨1, sid⟩
    add_validator_proposals := fun _ _ => .ok 0
    congestion_control_enabled := fun _ => false
    save_flat_state_changes := fun _ _ _ _ _ => .ok 0
    update_flat_storage_for_shard := fun _ _ => .ok ()
    compute_outcomes_proof := fun _ => (0, 0)
    apply_chunk_old := fun _ _ _ _ => .error .other
    save_block_header := fun _ => .ok ()
    inc_block_refcount := fun _ => .ok ()
    create_light_client_block_view := fun _ => .ok 0 }

/-- Gas of the child chunk extras staged by a resharding call, in order. -/
def reshardChildGas (r : Except ChainError ChainStoreUpdate) : List Nat :=
  match r with
  | .ok s => childGasList s.staged
  | .error _ => []

/-- Balance of the child chunk extras staged by a resharding call, in order. -/
def reshardChildBalance (r : Except ChainError ChainStoreUpdate) : List Nat :=
  match r with
  | .ok s => childBalanceList s.staged
  | .error _ => []


/-! ### Claims C1-C3 -/

/-- **C1.** For every resharding split processed via `ApplyReshardingResults`
with `N ≥ 1` child results and any parent totals, the call completes normally
and the sum of `gas_burnt` assigned across all child `ChunkExtra` records
equals the parent `ChunkExtra`'s `gas_used`, and the sum of `balance_burnt`
across all children equals the parent's `balance_burnt` — including when the
totals are not evenly divisible by `N`. -/
theorem claim_C1_resharding_sums_conserved (env : Env) (s : ChainStoreUpdate)
    (block : Block) (shard_uid : ShardUId) (results : List ApplyResultForResharding)
    (parent : ChunkExtra) (nepid epid : EpochId) (layout : ShardLayout)
    (children : List ShardUId) (pv : Nat)
    (h1 : env.get_chunk_extra block.hash shard_uid = Except.ok parent)
    (h2 : env.get_next_epoch_id_from_prev_block block.header.prev_hash = Except.ok nepid)
    (h3 : env.get_shard_layout nepid = Except.ok layout)
    (h4 : layout.get_children_shards_uids shard_uid.shard_id = some children)
    (h5 : children.length = results.length)
    (h6 : results ≠ [])
    (h7 : env.get_epoch_id_from_prev_block block.header.prev_hash = Except.ok epid)
    (h8 : env.get_epoch_protocol_version epid = Except.ok pv)
    (hcc : env.congestion_control_enabled pv = false)
    (hflat : ∀ a b c d e, ∃ u, env.save_flat_state_changes a b c d e = Except.ok u)
    (hupd : ∀ a b, env.update_flat_storage_for_shard a b = Except.ok ()) :
    ∃ ops : List StageOp,
      process_resharding_results env s block shard_uid
          (.ApplyReshardingResults results) =
        Except.ok { s with staged := s.staged ++ ops } ∧
      (childGasList ops).sum = parent.gas_used ∧
      (childBalanceList ops).sum = parent.balance_burnt := by
  have hn0 : 0 < results.length :=
    Nat.pos_of_ne_zero (fun h => h6 (List.length_eq_zero.mp h))
  obtain ⟨ops, hok, hg, hb⟩ := process_resharding_apply_ok env s block shard_uid results
    parent nepid epid layout children pv h1 h2 h3 h4 h5 h6 h7 h8 hcc hflat hupd
  refine ⟨ops, hok, ?_, ?_⟩
  · rw [hg, quotaList_sum, Nat.min_eq_left (Nat.le_of_lt (Nat.mod_lt _ hn0))]
    exact Nat.div_add_mod _ _
  · rw [hb, quotaList_sum, Nat.min_eq_left (Nat.le_of_lt (Nat.mod_lt _ hn0))]
    exact Nat.div_add_mod _ _

/-- Witness for C1 at a concrete input: parent totals 100 gas / 7 balance,
three children. -/
theorem claim_C1_resharding_sums_conserved_witness :
    ∃ ops : List StageOp,
      process_resharding_results envEx store0 blockEx uidParent
          (.ApplyReshardingResults resultsEx) =
        Except.ok { store0 with staged := store0.staged ++ ops } ∧
      (childGasList ops).sum = parentExtraEx.gas_used ∧
      (childBalanceList ops).sum = parentExtraEx.balance_burnt :=
  claim_C1_resharding_sums_conserved envEx store0 blockEx uidParent resultsEx
    parentExtraEx 4 3 layoutEx [uidA, uidB, uidC] 70
    rfl rfl rfl rfl rfl (by decide) rfl rfl rfl
    (fun _ _ _ _ _ => ⟨0, rfl⟩) (fun _ _ => rfl)

/-- **C2.** In a resharding split into `N` children, each child receives gas
quota `total_gas_used / N` and balance quota `total_balance_burnt / N`
(integer division), with the remainder (`total mod N`) distributed as `+1` to
the first `remainder` children in sorted shard-identity order; in particular,
for `total_gas_used = 100`, `total_balance_burnt = 7`, `N = 3`, the per-child
gas in sorted order is `[34, 33, 33]` and the per-child balance is
`[3, 2, 2]`. -/
theorem claim_C2_resharding_quota_assignment (env : Env) (s : ChainStoreUpdate)
    (block : Block) (shard_uid : ShardUId) (results : List ApplyResultForResharding)
    (parent : ChunkExtra) (nepid epid : EpochId) (layout : ShardLayout)
    (children : List ShardUId) (pv : Nat)
    (h1 : env.get_chunk_extra block.hash shard_uid = Except.ok parent)
    (h2 : env.get_next_epoch_id_from_prev_block block.header.prev_hash = Except.ok nepid)
    (h3 : env.get_shard_layout nepid = Except.ok layout)
    (h4 : layout.get_children_shards_uids shard_uid.shard_id = some children)
    (h5 : children.length = results.length)
    (h6 : results ≠ [])
    (h7 : env.get_epoch_id_from_prev_block block.header.prev_hash = Except.ok epid)
    (h8 : env.get_epoch_protocol_version epid = Except.ok pv)
    (hcc : env.congestion_control_enabled pv = false)
    (hflat : ∀ a b c d e, ∃ u, env.save_flat_state_changes a b c d e = Except.ok u)
    (hupd : ∀ a b, env.update_flat_storage_for_shard a b = Except.ok ()) :
    (∃ ops : List StageOp,
      process_resharding_results env s block shard_uid
          (.ApplyReshardingResults results) =
        Except.ok { s with staged := s.staged ++ ops } ∧
      childGasList ops = (List.range results.length).map
        (fun k => parent.gas_used / results.length +
          if k < parent.gas_used % results.length then 1 else 0) ∧
      childBalanceList ops = (List.range results.length).map
        (fun k => parent.balance_burnt / results.length +
          if k < parent.balance_burnt % results.length then 1 else 0)) ∧
    reshardChildGas (process_resharding_results envEx store0 blockEx uidParent
      (.ApplyReshardingResults resultsEx)) = [34, 33, 33] ∧
    reshardChildBalance (process_resharding_results envEx store0 blockEx uidParent
      (.ApplyReshardingResults resultsEx)) = [3, 2, 2] := by
  refine ⟨?_, by decide, by decide⟩
  obtain ⟨ops, hok, hg, hb⟩ := process_resharding_apply_ok env s block shard_uid results
    parent nepid epid layout children pv h1 h2 h3 h4 h5 h6 h7 h8 hcc hflat hupd
  exact ⟨ops, hok, hg, hb⟩

/-- Witness for C2 at the concrete scenario input. -/
theorem claim_C2_resharding_quota_assignment_witness :
    (∃ ops : List StageOp,
      process_resharding_results envEx store0 blockEx uidParent
          (.ApplyReshardingResults resultsEx) =
        Except.ok { store0 with staged := store0.staged ++ ops } ∧
      childGasList ops = (List.range resultsEx.length).map
        (fun k => parentExtraEx.gas_used / resultsEx.length +
          if k < parentExtraEx.gas_used % resultsEx.length then 1 else 0) ∧
      childBalanceList ops = (List.range resultsEx.length).map
        (fun k => parentExtraEx.balance_burnt / resultsEx.length +
          if k < parentExtraEx.balance_burnt % resultsEx.length then 1 else 0)) ∧
    reshardChildGas (process_resharding_results envEx store0 blockEx uidParent
      (.ApplyReshardingResults resultsEx)) = [34, 33, 33] ∧
    reshardChildBalance (process_resharding_results envEx store0 blockEx uidParent
      (.ApplyReshardingResults resultsEx)) = [3, 2, 2] :=
  claim_C2_resharding_quota_assignment envEx store0 blockEx uidParent resultsEx
    parentExtraEx 4 3 layoutEx [uidA, uidB, uidC] 70
    rfl rfl rfl rfl rfl (by decide) rfl rfl rfl
    (fun _ _ _ _ _ => ⟨0, rfl⟩) (fun _ _ => rfl)

/-- **C3.** Resharding redistribution is deterministic in the order of its
input list: for any two permutations of the same child apply results (with
pairwise distinct child shard identities, as produced by a split), the whole
output of `process_resharding_results` — and hence each child's `gas_burnt`,
`balance_burnt` and validator proposals — is identical, because the results
are sorted by shard identity before any assignment. -/
theorem claim_C3_resharding_order_deterministic (env : Env) (s : ChainStoreUpdate)
    (block : Block) (shard_uid : ShardUId)
    (l₁ l₂ : List ApplyResultForResharding) (hperm : l₁.Perm l₂)
    (hnd : (l₁.map ApplyResultForResharding.shard_uid).Nodup) :
    process_resharding_results env s block shard_uid (.ApplyReshardingResults l₁) =
      process_resharding_results env s block shard_uid (.ApplyReshardingResults l₂) := by
  have hs := sortReshardingResults_perm_eq hperm hnd
  simp only [process_resharding_results, hs]

/-- Witness for C3: the example child results in two different input orders. -/
theorem claim_C3_resharding_order_deterministic_witness :
    process_resharding_results envEx store0 blockEx uidParent
        (.ApplyReshardingResults resultsEx) =
      process_resharding_results envEx store0 blockEx uidParent
        (.ApplyReshardingResults [⟨uidA, 20, 2⟩, ⟨uidC, 22, 3⟩, ⟨uidB, 21, 1⟩]) :=
  claim_C3_resharding_order_deterministic envEx store0 blockEx uidParent
    resultsEx [⟨uidA, 20, 2⟩, ⟨uidC, 22, 3⟩, ⟨uidB, 21, 1⟩]
    (by decide) (by decide)

/-! ## Fork-Choice & Challenge Handler -/

/-- `update_header_head_if_not_challenged` (source lines 532-547): advance the
header head when the header's height strictly exceeds it.  The store method
`save_header_head_if_not_challenged` is modelled as the plain header-head
write (its challenge bookkeeping lives outside this file's source). -/
def update_header_head_if_not_challenged (s : ChainStoreUpdate) (header : BlockHeader) :
    Except ChainError (Option Tip × ChainStoreUpdate) :=
  let header_head := s.headerHead
  if header.height > header_head.height then
    let tip := Tip.from_header header
    Except.ok (some tip, { s with headerHead := tip })
  else
    Except.ok (none, s)

/-- `update_final_head_from_block` (source lines 549-564): look up the header
named as last-final-block; not-found is a no-op, any other failure
propagates; otherwise advance the final head when strictly higher. -/
def update_final_head_from_block (env : Env) (s : ChainStoreUpdate)
    (header : BlockHeader) : Except ChainError (Option Tip × ChainStoreUpdate) :=
  let final_head := s.finalHead
  match env.get_block_header header.last_final_block with
  | .error .dbNotFound => Except.ok (none, s)
  | .error e => Except.error e
  | .ok last_final_block_header =>
    if last_final_block_header.height > final_head.height then
      let tip := Tip.from_header last_final_block_header
      Except.ok (some tip, { s with finalHead := tip })
    else
      Except.ok (none, s)

/-- `update_head` (source lines 568-584): first attempt the final-head
update, then advance the body head when the header's height strictly exceeds
it. -/
def update_head (env : Env) (s : ChainStoreUpdate) (header : BlockHeader) :
    Except ChainError (Option Tip × ChainStoreUpdate) := do
  let (_, s) ← update_final_head_from_block env s header
  let head := s.bodyHead
  if header.height > head.height then
    let tip := Tip.from_header header
    Except.ok (some tip, { s with bodyHead := tip })
  else
    Except.ok (none, s)

/-- `mark_block_as_challenged` (source lines 587-644).  The store method
`save_head` is modelled (per the spec's "recompute the head") as the
body-head write. -/
def mark_block_as_challenged (env : Env) (s : ChainStoreUpdate)
    (block_hash : CryptoHash) (challenger_hash : Option CryptoHash) :
    Except ChainError ChainStoreUpdate := do
  match env.get_block_header block_hash with
  | .error .dbNotFound =>
    -- The block wasn't seen yet, still challenge is good.
    Except.ok (s.stage (.saveChallengedBlock block_hash))
  | .error e => Except.error e
  | .ok block_header => do
    let cur_block_at_same_height ←
      match env.get_block_hash_by_height block_header.height with
      | .ok bh => Except.ok (some bh)
      | .error .dbNotFound => Except.ok (none : Option CryptoHash)
      | .error e => Except.error e
    let s := s.stage (.saveChallengedBlock block_hash)
    -- If the block being invalidated is on the canonical chain, update head
    if cur_block_at_same_height = some block_hash then do
      let prev_header ← env.get_block_header block_header.prev_hash
      let prev_height := prev_header.height
      let new_head_header ←
        match challenger_hash with
        | some hash => do
          let challenger_header ← env.get_block_header hash
          if challenger_header.height > prev_height then
            Except.ok challenger_header
          else
            Except.ok prev_header
        | none => Except.ok prev_header
      let last_final_block := new_head_header.last_final_block
      let tip := Tip.from_header new_head_header
      let s := { s with bodyHead := tip }
      let new_final_header ← env.get_block_header last_final_block
      Except.ok { s with finalHead := Tip.from_header new_final_header }
    else
      Except.ok s

/-- **C5.** When `mark_block_as_challenged` is called on a block that is the
canonical block at its height, the new head is set to the challenger block if
a challenger hash is given and the challenger's height is strictly greater
than the challenged block's predecessor's height, and to the predecessor
otherwise; the new final head is then set from the header named by the chosen
new head's last-final-block reference, and the challenged marker is
recorded. -/
theorem claim_C5_challenge_canonical_head_recompute (env : Env) (s : ChainStoreUpdate)
    (block_hash : CryptoHash) (challenger_hash : Option CryptoHash)
    (block_header prev_header new_head_header new_final_header : BlockHeader)
    (hbh : env.get_block_header block_hash = Except.ok block_header)
    (hcan : env.get_block_hash_by_height block_header.height = Except.ok block_hash)
    (hprev : env.get_block_header block_header.prev_hash = Except.ok prev_header)
    (hch : match challenger_hash with
      | none => new_head_header = prev_header
      | some h => ∃ ch, env.get_block_header h = Except.ok ch ∧
          new_head_header = if ch.height > prev_header.height then ch else prev_header)
    (hfinal : env.get_block_header new_head_header.last_final_block =
      Except.ok new_final_header) :
    mark_block_as_challenged env s block_hash challenger_hash =
      Except.ok { s with
        bodyHead := Tip.from_header new_head_header
        finalHead := Tip.from_header new_final_header
        staged := s.staged ++ [.saveChallengedBlock block_hash] } := by
  rcases challenger_hash with _ | ch
  · simp only at hch
    subst hch
    simp only [mark_block_as_challenged, hbh, hcan, hprev, hfinal, Bind.bind, Except.bind,
      ChainStoreUpdate.stage, if_pos rfl, if_true]
  · obtain ⟨chh, hchh, hnew⟩ := hch
    by_cases hgt : chh.height > prev_header.height
    · rw [if_pos hgt] at hnew
      subst hnew
      simp only [mark_block_as_challenged, hbh, hcan, hprev, hchh, hfinal, Bind.bind,
        Except.bind, ChainStoreUpdate.stage, if_pos rfl, if_pos hgt, if_true]
    · rw [if_neg hgt] at hnew
      subst hnew
      simp only [mark_block_as_challenged, hbh, hcan, hprev, hchh, hfinal, Bind.bind,
        Except.bind, ChainStoreUpdate.stage, if_pos rfl, if_neg hgt, if_true]

/-- Challenge-scenario fixtures: block 50 (height 10) is canonical at its
height; its predecessor is 49 (height 9); a challenger 60 (height 11)
exists; 30 is a known final block (height 8). -/
def hdrChall : BlockHeader :=
  { hash := 50, height := 10, prev_hash := 49, epoch_id := 3, last_final_block := 30 }
def hdrPrev : BlockHeader :=
  { hash := 49, height := 9, prev_hash := 48, epoch_id := 3, last_final_block := 30 }
def hdrChallenger : BlockHeader :=
  { hash := 60, height := 11, prev_hash := 49, epoch_id := 3, last_final_block := 30 }
def hdrFinal : BlockHeader :=
  { hash := 30, height := 8, prev_hash := 29, epoch_id := 3, last_final_block := 0 }

def envChal : Env :=
  { envEx with
    get_block_header := fun h =>
      if h = 50 then .ok hdrChall
      else if h = 49 then .ok hdrPrev
      else if h = 60 then .ok hdrChallenger
      else if h = 30 then .ok hdrFinal
      else .error .dbNotFound
    get_block_hash_by_height := fun ht =>
      if ht = 10 then .ok 50 else .error .dbNotFound }

/-- Witness for C5: challenging canonical block 50 with challenger 60
(height 11 > predecessor height 9) moves the head to the challenger and the
final head to the challenger's last final block. -/
theorem claim_C5_challenge_canonical_head_recompute_witness :
    mark_block_as_challenged envChal store0 50 (some 60) =
      Except.ok { store0 with
        bodyHead := Tip.from_header hdrChallenger
        finalHead := Tip.from_header hdrFinal
        staged := store0.staged ++ [.saveChallengedBlock 50] } :=
  claim_C5_challenge_canonical_head_recompute envChal store0 50 (some 60)
    hdrChall hdrPrev hdrChallenger hdrFinal
    rfl rfl rfl ⟨hdrChallenger, rfl, by decide⟩ rfl

/-- **C6.** When `mark_block_as_challenged` is called on a block hash whose
header is not found in the store, the call records the challenged-block
marker, performs no update to header head, body head, or final head, and
returns success. -/
theorem claim_C6_challenge_unknown_block_frame (env : Env) (s : ChainStoreUpdate)
    (block_hash : CryptoHash) (challenger_hash : Option CryptoHash)
    (hnotfound : env.get_block_header block_hash = Except.error .dbNotFound) :
    ∃ s', mark_block_as_challenged env s block_hash challenger_hash = Except.ok s' ∧
      s'.headerHead = s.headerHead ∧ s'.bodyHead = s.bodyHead ∧
      s'.finalHead = s.finalHead ∧
      s'.staged = s.staged ++ [.saveChallengedBlock block_hash] := by
  refine ⟨s.stage (.saveChallengedBlock block_hash), ?_, rfl, rfl, rfl, rfl⟩
  simp only [mark_block_as_challenged, hnotfound]

/-- Witness for C6: challenging a hash (99) unknown to the store. -/
theorem claim_C6_challenge_unknown_block_frame_witness :
    ∃ s', mark_block_as_challenged envChal store0 99 none = Except.ok s' ∧
      s'.headerHead = store0.headerHead ∧ s'.bodyHead = store0.bodyHead ∧
      s'.finalHead = store0.finalHead ∧
      s'.staged = store0.staged ++ [.saveChallengedBlock 99] :=
  claim_C6_challenge_unknown_block_frame envChal store0 99 none rfl

/-- **C10.** When `mark_block_as_challenged` is called on a block whose
header is known to the store but which is not the canonical block at its
height (the canonical hash at that height differs, or no block is recorded
at that height), the challenged marker is still recorded, no head or
final-head write occurs, and the call returns success. -/
theorem claim_C10_challenge_noncanonical_frame (env : Env) (s : ChainStoreUpdate)
    (block_hash : CryptoHash) (challenger_hash : Option CryptoHash)
    (block_header : BlockHeader)
    (hbh : env.get_block_header block_hash = Except.ok block_header)
    (hnoncan : (∃ other, env.get_block_hash_by_height block_header.height =
        Except.ok other ∧ other ≠ block_hash) ∨
      env.get_block_hash_by_height block_header.height = Except.error .dbNotFound) :
    ∃ s', mark_block_as_challenged env s block_hash challenger_hash = Except.ok s' ∧
      s'.headerHead = s.headerHead ∧ s'.bodyHead = s.bodyHead ∧
      s'.finalHead = s.finalHead ∧
      s'.staged = s.staged ++ [.saveChallengedBlock block_hash] := by
  refine ⟨s.stage (.saveChallengedBlock block_hash), ?_, rfl, rfl, rfl, rfl⟩
  rcases hnoncan with ⟨other, hother, hne⟩ | hnf
  · simp only [mark_block_as_challenged, hbh, hother, Bind.bind, Except.bind]
    rw [if_neg (by simp [hne])]
  · simp only [mark_block_as_challenged, hbh, hnf, Bind.bind, Except.bind]
    rw [if_neg (by simp)]

/-- Witness for C10: block 49 is known (height 9) but no canonical hash is
recorded at height 9. -/
theorem claim_C10_challenge_noncanonical_frame_witness :
    ∃ s', mark_block_as_challenged envChal store0 49 none = Except.ok s' ∧
      s'.headerHead = store0.headerHead ∧ s'.bodyHead = store0.bodyHead ∧
      s'.finalHead = store0.finalHead ∧
      s'.staged = store0.staged ++ [.saveChallengedBlock 49] :=
  claim_C10_challenge_noncanonical_frame envChal store0 49 none hdrPrev rfl (Or.inr rfl)

/-! ### Tip-update sequences (for the monotonicity invariants) -/

/-- One non-challenge tip update: a call to one of the three update
functions with a candidate header. `update_final_head_from_block` is listed
for completeness of the per-call facts; in the source it is private and its
only call site is inside `update_head`, so a committed state always arises
from the two entry points. -/
inductive TipUpdate where
  | headerHead (header : BlockHeader)
  | head (header : BlockHeader)
  | finalHead (header : BlockHeader)
deriving DecidableEq, Repr

/-- The candidate header carried by a tip update. -/
def TipUpdate.header : TipUpdate → BlockHeader
  | .headerHead h => h
  | .head h => h
  | .finalHead h => h

/-- Dispatch one tip update to the corresponding source function. -/
def applyTipUpdate (env : Env) (s : ChainStoreUpdate) :
    TipUpdate → Except ChainError (Option Tip × ChainStoreUpdate)
  | .headerHead h => update_header_head_if_not_challenged s h
  | .head h => update_head env s h
  | .finalHead h => update_final_head_from_block env s h

/-- Run a sequence of tip updates; any propagated error aborts the run (the
uncommitted transaction is dropped). -/
def runTipUpdates (env : Env) (s : ChainStoreUpdate) :
    List TipUpdate → Except ChainError ChainStoreUpdate
  | [] => Except.ok s
  | u :: us => do
    let (_, s) ← applyTipUpdate env s u
    runTipUpdates env s us

/-- `update_header_head_if_not_challenged` only rewrites the header head,
and only upward. -/
theorem update_header_head_shape (s : ChainStoreUpdate) (h : BlockHeader)
    (r : Option Tip) (s' : ChainStoreUpdate)
    (hok : update_header_head_if_not_challenged s h = Except.ok (r, s')) :
    s.headerHead.height ≤ s'.headerHead.height ∧
    s'.bodyHead = s.bodyHead ∧ s'.finalHead = s.finalHead ∧ s'.staged = s.staged := by
  unfold update_header_head_if_not_challenged at hok
  by_cases hgt : h.height > s.headerHead.height
  · rw [if_pos hgt] at hok
    obtain ⟨-, rfl⟩ := Prod.mk.injEq .. ▸ (Except.ok.injEq .. ▸ hok)
    exact ⟨Nat.le_of_lt hgt, rfl, rfl, rfl⟩
  · rw [if_neg hgt] at hok
    obtain ⟨-, rfl⟩ := Prod.mk.injEq .. ▸ (Except.ok.injEq .. ▸ hok)
    exact ⟨Nat.le_refl _, rfl, rfl, rfl⟩

/-- `update_final_head_from_block` only rewrites the final head, and only
upward. -/
theorem update_final_head_shape (env : Env) (s : ChainStoreUpdate) (h : BlockHeader)
    (r : Option Tip) (s' : ChainStoreUpdate)
    (hok : update_final_head_from_block env s h = Except.ok (r, s')) :
    s.finalHead.height ≤ s'.finalHead.height ∧
    s'.headerHead = s.headerHead ∧ s'.bodyHead = s.bodyHead ∧ s'.staged = s.staged := by
  cases hlook : env.get_block_header h.last_final_block with
  | error e =>
    cases e
    · simp only [update_final_head_from_block, hlook, Except.ok.injEq, Prod.mk.injEq] at hok
      obtain ⟨-, h2⟩ := hok
      subst h2
      exact ⟨Nat.le_refl _, rfl, rfl, rfl⟩
    · simp only [update_final_head_from_block, hlook] at hok
      exact absurd hok (by simp)
    · simp only [update_final_head_from_block, hlook] at hok
      exact absurd hok (by simp)
  | ok lfh =>
    by_cases hgt : lfh.height > s.finalHead.height
    · simp only [update_final_head_from_block, hlook, if_pos hgt, Except.ok.injEq,
        Prod.mk.injEq] at hok
      obtain ⟨-, h2⟩ := hok
      subst h2
      exact ⟨Nat.le_of_lt hgt, rfl, rfl, rfl⟩
    · simp only [update_final_head_from_block, hlook, if_neg hgt, Except.ok.injEq,
        Prod.mk.injEq] at hok
      obtain ⟨-, h2⟩ := hok
      subst h2
      exact ⟨Nat.le_refl _, rfl, rfl, rfl⟩

/-- The final head set by `update_final_head_from_block` never exceeds the
larger of its old height and the candidate header's height, provided the
header's last-final reference resolves below the header itself. -/
theorem update_final_head_bound (env : Env) (s : ChainStoreUpdate) (h : BlockHeader)
    (r : Option Tip) (s' : ChainStoreUpdate)
    (hok : update_final_head_from_block env s h = Except.ok (r, s'))
    (hwf : ∀ lfh, env.get_block_header h.last_final_block = Except.ok lfh →
      lfh.height ≤ h.height) :
    s'.finalHead.height ≤ s.finalHead.height ∨ s'.finalHead.height ≤ h.height := by
  cases hlook : env.get_block_header h.last_final_block with
  | error e =>
    cases e
    · simp only [update_final_head_from_block, hlook, Except.ok.injEq, Prod.mk.injEq] at hok
      obtain ⟨-, h2⟩ := hok
      subst h2
      exact Or.inl (Nat.le_refl _)
    · simp only [update_final_head_from_block, hlook] at hok
      exact absurd hok (by simp)
    · simp only [update_final_head_from_block, hlook] at hok
      exact absurd hok (by simp)
  | ok lfh =>
    have hb := hwf lfh hlook
    by_cases hgt : lfh.height > s.finalHead.height
    · simp only [update_final_head_from_block, hlook, if_pos hgt, Except.ok.injEq,
        Prod.mk.injEq] at hok
      obtain ⟨-, h2⟩ := hok
      subst h2
      exact Or.inr hb
    · simp only [update_final_head_from_block, hlook, if_neg hgt, Except.ok.injEq,
        Prod.mk.injEq] at hok
      obtain ⟨-, h2⟩ := hok
      subst h2
      exact Or.inl (Nat.le_refl _)

/-- `update_head` leaves the header head and staged writes unchanged, moves
body and final head only upward, and declines the body-head update (returning
`none`, state unchanged) when the candidate is not strictly higher. -/
theorem update_head_shape (env : Env) (s : ChainStoreUpdate) (h : BlockHeader)
    (r : Option Tip) (s' : ChainStoreUpdate)
    (hok : update_head env s h = Except.ok (r, s')) :
    s.bodyHead.height ≤ s'.bodyHead.height ∧
    s.finalHead.height ≤ s'.finalHead.height ∧
    s'.headerHead = s.headerHead ∧ s'.staged = s.staged ∧
    (h.height ≤ s.bodyHead.height → r = none ∧ s'.bodyHead = s.bodyHead) := by
  unfold update_head at hok
  cases hfin : update_final_head_from_block env s h with
  | error e =>
    rw [hfin] at hok
    exact absurd hok (by simp [Bind.bind, Except.bind])
  | ok p =>
    obtain ⟨r1, s1⟩ := p
    rw [hfin] at hok
    simp only [Bind.bind, Except.bind] at hok
    obtain ⟨hfle, hhh, hbh, hst⟩ := update_final_head_shape env s h r1 s1 hfin
    by_cases hgt : h.height > s1.bodyHead.height
    · simp only [if_pos hgt, Except.ok.injEq, Prod.mk.injEq] at hok
      obtain ⟨-, h2⟩ := hok
      subst h2
      rw [hbh] at hgt
      exact ⟨Nat.le_of_lt hgt, hfle, hhh, hst, fun hle => absurd hgt (Nat.not_lt.mpr hle)⟩
    · simp only [if_neg hgt, Except.ok.injEq, Prod.mk.injEq] at hok
      obtain ⟨h1, h2⟩ := hok
      subst h2
      rw [hbh] at hgt ⊢
      exact ⟨Nat.le_refl _, hfle, hhh, hst, fun _ => ⟨h1.symm, rfl⟩⟩

/-- Any single tip update moves all three head heights weakly upward. -/
theorem applyTipUpdate_mono (env : Env) (s : ChainStoreUpdate) (u : TipUpdate)
    (r : Option Tip) (s' : ChainStoreUpdate)
    (hok : applyTipUpdate env s u = Except.ok (r, s')) :
    s.headerHead.height ≤ s'.headerHead.height ∧
    s.bodyHead.height ≤ s'.bodyHead.height ∧
    s.finalHead.height ≤ s'.finalHead.height := by
  cases u with
  | headerHead h =>
    obtain ⟨h1, h2, h3, -⟩ := update_header_head_shape s h r s' hok
    exact ⟨h1, h2 ▸ Nat.le_refl _, h3 ▸ Nat.le_refl _⟩
  | head h =>
    obtain ⟨h1, h2, h3, -, -⟩ := update_head_shape env s h r s' hok
    exact ⟨h3 ▸ Nat.le_refl _, h1, h2⟩
  | finalHead h =>
    obtain ⟨h1, h2, h3, -⟩ := update_final_head_shape env s h r s' hok
    exact ⟨h2 ▸ Nat.le_refl _, h3 ▸ Nat.le_refl _, h1⟩

/-- Across any sequence of tip updates that completes, all three head
heights are non-decreasing. -/
theorem runTipUpdates_mono (env : Env) :
    ∀ (us : List TipUpdate) (s s' : ChainStoreUpdate),
      runTipUpdates env s us = Except.ok s' →
      s.headerHead.height ≤ s'.headerHead.height ∧
      s.bodyHead.height ≤ s'.bodyHead.height ∧
      s.finalHead.height ≤ s'.finalHead.height := by
  intro us
  induction us with
  | nil =>
    intro s s' hok
    simp only [runTipUpdates, Except.ok.injEq] at hok
    subst hok
    exact ⟨Nat.le_refl _, Nat.le_refl _, Nat.le_refl _⟩
  | cons u rest ih =>
    intro s s' hok
    simp only [runTipUpdates, Bind.bind, Except.bind] at hok
    cases hstep : applyTipUpdate env s u with
    | error e => rw [hstep] at hok; exact absurd hok (by simp)
    | ok p =>
      obtain ⟨r1, s1⟩ := p
      rw [hstep] at hok
      obtain ⟨m1, m2, m3⟩ := applyTipUpdate_mono env s u r1 s1 hstep
      obtain ⟨n1, n2, n3⟩ := ih s1 s' hok
      exact ⟨Nat.le_trans m1 n1, Nat.le_trans m2 n2, Nat.le_trans m3 n3⟩

/-- One `update_head` call preserves `finalHead ≤ bodyHead`, provided the
candidate header's last-final reference resolves to a header at or below the
candidate's own height. -/
theorem update_head_final_le_body (env : Env) (s : ChainStoreUpdate) (h : BlockHeader)
    (r : Option Tip) (s' : ChainStoreUpdate)
    (hok : update_head env s h = Except.ok (r, s'))
    (hwf : ∀ lfh, env.get_block_header h.last_final_block = Except.ok lfh →
      lfh.height ≤ h.height)
    (hinv : s.finalHead.height ≤ s.bodyHead.height) :
    s'.finalHead.height ≤ s'.bodyHead.height := by
  unfold update_head at hok
  cases hfin : update_final_head_from_block env s h with
  | error e =>
    rw [hfin] at hok
    exact absurd hok (by simp [Bind.bind, Except.bind])
  | ok p =>
    obtain ⟨r1, s1⟩ := p
    rw [hfin] at hok
    simp only [Bind.bind, Except.bind] at hok
    obtain ⟨-, -, hbh, -⟩ := update_final_head_shape env s h r1 s1 hfin
    have hbound := update_final_head_bound env s h r1 s1 hfin hwf
    by_cases hgt : h.height > s1.bodyHead.height
    · simp only [if_pos hgt, Except.ok.injEq, Prod.mk.injEq] at hok
      obtain ⟨-, h2⟩ := hok
      subst h2
      rw [hbh] at hgt
      show s1.finalHead.height ≤ h.height
      rcases hbound with hb1 | hb2
      · exact Nat.le_trans hb1 (Nat.le_trans hinv (Nat.le_of_lt hgt))
      · exact hb2
    · simp only [if_neg hgt, Except.ok.injEq, Prod.mk.injEq] at hok
      obtain ⟨-, h2⟩ := hok
      subst h2
      rw [hbh]
      rw [hbh] at hgt
      rcases hbound with hb1 | hb2
      · exact Nat.le_trans hb1 hinv
      · exact Nat.le_trans hb2 (Nat.not_lt.mp hgt)

/-- Across any completed sequence of entry-point tip updates (header-head
and body-head updates; in the source the final-head update is private to
`update_head`, so committed states arise only from these entry points),
`finalHead ≤ bodyHead` is preserved, provided each candidate header's
last-final reference resolves at or below the candidate itself. -/
theorem runTipUpdates_final_le_body (env : Env) :
    ∀ (us : List TipUpdate) (s s' : ChainStoreUpdate),
      (∀ u ∈ us, ∀ lfh,
        env.get_block_header (TipUpdate.header u).last_final_block = Except.ok lfh →
        lfh.height ≤ (TipUpdate.header u).height) →
      (∀ h, TipUpdate.finalHead h ∉ us) →
      runTipUpdates env s us = Except.ok s' →
      s.finalHead.height ≤ s.bodyHead.height →
      s'.finalHead.height ≤ s'.bodyHead.height := by
  intro us
  induction us with
  | nil =>
    intro s s' _ _ hok hinv
    simp only [runTipUpdates, Except.ok.injEq] at hok
    subst hok
    exact hinv
  | cons u rest ih =>
    intro s s' hwf hnf hok hinv
    simp only [runTipUpdates, Bind.bind, Except.bind] at hok
    cases hstep : applyTipUpdate env s u with
    | error e => rw [hstep] at hok; exact absurd hok (by simp)
    | ok p =>
      obtain ⟨r1, s1⟩ := p
      rw [hstep] at hok
      have hinv1 : s1.finalHead.height ≤ s1.bodyHead.height := by
        cases u with
        | headerHead h =>
          obtain ⟨-, hb, hf, -⟩ := update_header_head_shape s h r1 s1 hstep
          rw [hb, hf]
          exact hinv
        | head h =>
          exact update_head_final_le_body env s h r1 s1 hstep
            (hwf _ (List.mem_cons_self _ _)) hinv
        | finalHead h =>
          exact absurd (List.mem_cons_self _ rest) (hnf h)
      exact ih s1 s' (fun v hv lfh hl => hwf v (List.mem_cons_of_mem _ hv) lfh hl)
        (fun h hm => hnf h (List.mem_cons_of_mem _ hm)) hok hinv1

/-- Fixtures for the header-head scenario: header head at height 12, a
candidate header at height 10. -/
def tip12 : Tip := { height := 12, last_block_hash := 41, prev_block_hash := 40, epoch_id := 3 }
def storeHH12 : ChainStoreUpdate := { store0 with headerHead := tip12 }
def hdr10 : BlockHeader :=
  { hash := 100, height := 10, prev_hash := 99, epoch_id := 3, last_final_block := 0 }

/-- **C7.** Across any sequence of non-challenge tip updates, each of the
header head, body head, and final head heights is non-decreasing; each tip
advances only when the candidate's height strictly exceeds the current tip
height, otherwise the tip is left unchanged and the call returns no update
(in particular, a header at height 10 against a header head at height 12
returns no update); and across any completed sequence of the two tip-update
entry points (`update_header_head_if_not_challenged` and `update_head`; the
final-head update is private to `update_head`, so committed states arise
only through them), with candidate headers whose last-final reference
resolves at or below the candidate, the invariant `finalHead.height ≤
bodyHead.height` is preserved. -/
theorem claim_C7_tip_monotonicity (env : Env) :
    (∀ (us : List TipUpdate) (s s' : ChainStoreUpdate),
      runTipUpdates env s us = Except.ok s' →
      s.headerHead.height ≤ s'.headerHead.height ∧
      s.bodyHead.height ≤ s'.bodyHead.height ∧
      s.finalHead.height ≤ s'.finalHead.height) ∧
    (∀ (s : ChainStoreUpdate) (h : BlockHeader),
      h.height ≤ s.headerHead.height →
      update_header_head_if_not_challenged s h = Except.ok (none, s)) ∧
    (∀ (s : ChainStoreUpdate) (h : BlockHeader) (r : Option Tip) (s' : ChainStoreUpdate),
      update_head env s h = Except.ok (r, s') → h.height ≤ s.bodyHead.height →
      r = none ∧ s'.bodyHead = s.bodyHead) ∧
    (∀ (s : ChainStoreUpdate) (h : BlockHeader) (lfh : BlockHeader),
      env.get_block_header h.last_final_block = Except.ok lfh →
      lfh.height ≤ s.finalHead.height →
      update_final_head_from_block env s h = Except.ok (none, s)) ∧
    (update_header_head_if_not_challenged storeHH12 hdr10 =
      Except.ok (none, storeHH12)) ∧
    (∀ (us : List TipUpdate) (s s' : ChainStoreUpdate),
      (∀ u ∈ us, ∀ lfh,
        env.get_block_header (TipUpdate.header u).last_final_block = Except.ok lfh →
        lfh.height ≤ (TipUpdate.header u).height) →
      (∀ h, TipUpdate.finalHead h ∉ us) →
      runTipUpdates env s us = Except.ok s' →
      s.finalHead.height ≤ s.bodyHead.height →
      s'.finalHead.height ≤ s'.bodyHead.height) := by
  refine ⟨fun us s s' hok => runTipUpdates_mono env us s s' hok, ?_, ?_, ?_, rfl,
    runTipUpdates_final_le_body env⟩
  · intro s h hle
    unfold update_header_head_if_not_challenged
    rw [if_neg (Nat.not_lt.mpr hle)]
  · intro s h r s' hok hle
    exact (update_head_shape env s h r s' hok).2.2.2.2 hle
  · intro s h lfh hl hle
    simp only [update_final_head_from_block, hl, if_neg (Nat.not_lt.mpr hle)]

/-- Fixtures for the C7 witness: a header at height 12 whose last final
block (height 8) is known. -/
def hdr40C7 : BlockHeader :=
  { hash := 40, height := 12, prev_hash := 39, epoch_id := 3, last_final_block := 30 }

def envHeads : Env :=
  { envEx with
    get_block_header := fun h =>
      if h = 30 then .ok hdrFinal
      else if h = 40 then .ok hdr40C7
      else .error .dbNotFound }

def usC7 : List TipUpdate := [.headerHead hdr40C7, .head hdr40C7]

def sC7 : ChainStoreUpdate :=
  { headerHead := Tip.from_header hdr40C7
    bodyHead := Tip.from_header hdr40C7
    finalHead := Tip.from_header hdrFinal
    staged := [] }

/-- Witness for C7: a concrete two-step run advancing all heads, the
height-10-versus-12 scenario, and the final-below-body invariant at the
result. -/
theorem claim_C7_tip_monotonicity_witness :
    runTipUpdates envHeads store0 usC7 = Except.ok sC7 ∧
    store0.headerHead.height ≤ sC7.headerHead.height ∧
    store0.bodyHead.height ≤ sC7.bodyHead.height ∧
    store0.finalHead.height ≤ sC7.finalHead.height ∧
    update_header_head_if_not_challenged storeHH12 hdr10 =
      Except.ok (none, storeHH12) ∧
    sC7.finalHead.height ≤ sC7.bodyHead.height := by
  have hwf : ∀ u ∈ usC7, ∀ lfh,
      envHeads.get_block_header (TipUpdate.header u).last_final_block = Except.ok lfh →
      lfh.height ≤ (TipUpdate.header u).height := by
    intro u hu lfh hl
    have hcase : u = .headerHead hdr40C7 ∨ u = .head hdr40C7 := by
      simpa [usC7] using hu
    rcases hcase with rfl | rfl <;>
    · have h2 : (Except.ok hdrFinal : Except ChainError BlockHeader) = Except.ok lfh := hl
      have h3 : hdrFinal = lfh := Except.ok.injEq _ _ ▸ h2
      rw [← h3]
      decide
  have hnf : ∀ h, TipUpdate.finalHead h ∉ usC7 := by
    intro h hm
    simp [usC7] at hm
  have hmono := (claim_C7_tip_monotonicity envHeads).1 usC7 store0 sC7 rfl
  have hinv := (claim_C7_tip_monotonicity envHeads).2.2.2.2.2 usC7 store0 sC7
    hwf hnf rfl (Nat.le_refl _)
  exact ⟨rfl, hmono.1, hmono.2.1, hmono.2.2,
    (claim_C7_tip_monotonicity envHeads).2.2.2.2.1, hinv⟩

/-! ## State-Sync Finalizer (`set_state_finalize_on_height`) -/

/-- `set_state_finalize_on_height` (source lines 780-845).  Note the source's
`if let Err(_) = block_header_result { return Ok(true); }`: ANY failure of
the height lookup — not only not-found — is treated as "no such height, go
ahead" and yields `Ok(true)`. -/
def set_state_finalize_on_height (env : Env) (s : ChainStoreUpdate)
    (height : BlockHeight) (shard_id : ShardId) (sync_hash : CryptoHash) :
    Except ChainError (Bool × ChainStoreUpdate) := do
  let block_header_result := env.get_block_header_on_chain_by_height sync_hash height
  match block_header_result with
  | .error _ =>
    -- No such height, go ahead.
    Except.ok (true, s)
  | .ok block_header =>
    if block_header.hash = sync_hash then
      -- Don't continue
      Except.ok (false, s)
    else do
      let block ← env.get_block block_header.hash
      let prev_hash := block_header.prev_hash
      let prev_block_header ← env.get_block_header prev_hash
      let shard_uid ← env.shard_id_to_uid shard_id block_header.epoch_id
      let chunk_extra ← env.get_chunk_extra prev_hash shard_uid
      let apply_result ← env.apply_chunk_old chunk_extra block_header prev_block_header
        block.block_congestion_info
      let store_update ← env.save_flat_state_changes block_header.hash
        prev_block_header.hash height shard_uid apply_result.trie_changes.state_changes
      let s := s.stage (.mergeUpdate store_update)
      let s := s.stage (.saveTrieChanges apply_result.trie_changes)
      -- Prepare a chunk extra as a copy of the old one with the new state root.
      let new_chunk_extra := { chunk_extra with state_root := apply_result.new_root }
      Except.ok (true, s.stage (.saveChunkExtra block_header.hash shard_uid new_chunk_extra))

/-- **C9.** For every call to `set_state_finalize_on_height`: if the
requested height does not exist on the canonical path to the sync target, it
returns the continue signal (`true`) without error and without saving a new
`ChunkExtra`; if the block at that height is the sync target itself, it
returns the stop signal (`false`) without saving a new `ChunkExtra`;
otherwise (all collaborator calls succeeding) it saves a new `ChunkExtra`
and returns continue (`true`). -/
theorem claim_C9_finalize_on_height_signals (env : Env) :
    (∀ (s : ChainStoreUpdate) (height : BlockHeight) (shard_id : ShardId)
        (sync_hash : CryptoHash),
      env.get_block_header_on_chain_by_height sync_hash height =
        Except.error .dbNotFound →
      set_state_finalize_on_height env s height shard_id sync_hash =
        Except.ok (true, s)) ∧
    (∀ (s : ChainStoreUpdate) (height : BlockHeight) (shard_id : ShardId)
        (sync_hash : CryptoHash) (block_header : BlockHeader),
      env.get_block_header_on_chain_by_height sync_hash height =
        Except.ok block_header →
      block_header.hash = sync_hash →
      set_state_finalize_on_height env s height shard_id sync_hash =
        Except.ok (false, s)) ∧
    (∀ (s : ChainStoreUpdate) (height : BlockHeight) (shard_id : ShardId)
        (sync_hash : CryptoHash) (block_header prev_block_header : BlockHeader)
        (block : Block) (shard_uid : ShardUId) (chunk_extra : ChunkExtra)
        (apply_result : ApplyChunkResult) (store_update : StoreUpdate),
      env.get_block_header_on_chain_by_height sync_hash height =
        Except.ok block_header →
      block_header.hash ≠ sync_hash →
      env.get_block block_header.hash = Except.ok block →
      env.get_block_header block_header.prev_hash = Except.ok prev_block_header →
      env.shard_id_to_uid shard_id block_header.epoch_id = Except.ok shard_uid →
      env.get_chunk_extra block_header.prev_hash shard_uid = Except.ok chunk_extra →
      env.apply_chunk_old chunk_extra block_header prev_block_header
        block.block_congestion_info = Except.ok apply_result →
      env.save_flat_state_changes block_header.hash prev_block_header.hash height
        shard_uid apply_result.trie_changes.state_changes = Except.ok store_update →
      set_state_finalize_on_height env s height shard_id sync_hash =
        Except.ok (true, { s with staged := s.staged ++
          [.mergeUpdate store_update,
           .saveTrieChanges apply_result.trie_changes,
           .saveChunkExtra block_header.hash shard_uid
             { chunk_extra with state_root := apply_result.new_root }] })) := by
  refine ⟨?_, ?_, ?_⟩
  · intro s height shard_id sync_hash hnf
    simp only [set_state_finalize_on_height, hnf]
  · intro s height shard_id sync_hash block_header hok heq
    simp only [set_state_finalize_on_height, hok, if_pos heq]
  · intro s height shard_id sync_hash block_header prev_block_header block shard_uid
      chunk_extra apply_result store_update hok hne hblock hprev huid hextra happly hflat
    simp only [set_state_finalize_on_height, hok, if_neg hne, hblock, hprev, huid, hextra,
      happly, hflat, Bind.bind, Except.bind, ChainStoreUpdate.stage, Except.ok.injEq,
      List.append_assoc, List.cons_append, List.nil_append]

/-- Fixtures for the state-sync finalizer: sync target 80 at height 7;
height 5 holds block 70; height 9 is absent. -/
def hdrH5 : BlockHeader :=
  { hash := 70, height := 5, prev_hash := 69, epoch_id := 3, last_final_block := 0 }
def hdrH7 : BlockHeader :=
  { hash := 80, height := 7, prev_hash := 70, epoch_id := 3, last_final_block := 0 }
def hdr69 : BlockHeader :=
  { hash := 69, height := 4, prev_hash := 68, epoch_id := 3, last_final_block := 0 }
def ceC9 : ChunkExtra :=
  { state_root := 11, outcome_root := 12, validator_proposals := [], gas_used := 10
    gas_limit := 1000, balance_burnt := 2, congestion_info := none }
def arC9 : ApplyChunkResult :=
  { new_root := 55, outcomes := [], validator_proposals := [], total_gas_burnt := 0
    total_balance_burnt := 0, congestion_info := none, trie_changes := 9
    outgoing_receipts := 0, proof := 0, applied_receipts_hash := 0 }

def envC9 : Env :=
  { envEx with
    get_block_header_on_chain_by_height := fun sh ht =>
      if sh = 80 then
        if ht = 5 then .ok hdrH5
        else if ht = 7 then .ok hdrH7
        else .error .dbNotFound
      else .error .dbNotFound
    get_block_header := fun h => if h = 69 then .ok hdr69 else .error .dbNotFound
    get_block := fun h =>
      if h = 70 then .ok { header := hdrH5, block_congestion_info := 0 }
      else .error .dbNotFound
    get_chunk_extra := fun h u =>
      if h = 69 then if u = ⟨1, 0⟩ then .ok ceC9 else .error .dbNotFound
      else .error .dbNotFound
    apply_chunk_old := fun _ _ _ _ => .ok arC9 }

/-- Witness for C9: all three branches at concrete inputs — absent height 9,
the sync target itself at height 7, and a regular height 5 that stages a new
chunk extra. -/
theorem claim_C9_finalize_on_height_signals_witness :
    set_state_finalize_on_height envC9 store0 9 0 80 = Except.ok (true, store0) ∧
    set_state_finalize_on_height envC9 store0 7 0 80 = Except.ok (false, store0) ∧
    set_state_finalize_on_height envC9 store0 5 0 80 =
      Except.ok (true, { store0 with staged := store0.staged ++
        [.mergeUpdate 0,
         .saveTrieChanges arC9.trie_changes,
         .saveChunkExtra hdrH5.hash ⟨1, 0⟩
           { ceC9 with state_root := arC9.new_root }] }) :=
  ⟨(claim_C9_finalize_on_height_signals envC9).1 store0 9 0 80 rfl,
   (claim_C9_finalize_on_height_signals envC9).2.1 store0 7 0 80 hdrH7 rfl rfl,
   (claim_C9_finalize_on_height_signals envC9).2.2 store0 5 0 80 hdrH5 hdr69
     { header := hdrH5, block_congestion_info := 0 } ⟨1, 0⟩ ceC9 arC9 0
     rfl (by decide) rfl rfl rfl rfl rfl rfl⟩

/-- Fixtures for C8: an environment whose height lookup fails with a
non-not-found storage error, and whose header store yields not-found for
hash 30 but a non-not-found error for hash 31. -/
def envC8 : Env :=
  { envEx with
    get_block_header_on_chain_by_height := fun _ _ => .error .other
    get_block_header := fun h =>
      if h = 31 then .error .other else .error .dbNotFound }

def hdrLF30 : BlockHeader :=
  { hash := 90, height := 20, prev_hash := 89, epoch_id := 3, last_final_block := 30 }
def hdrLF31 : BlockHeader :=
  { hash := 91, height := 21, prev_hash := 90, epoch_id := 3, last_final_block := 31 }

/-- **C8, counterexample.**  The claim asserts that any storage read failure
other than not-found propagates as an error.  At this concrete input the
height lookup of `set_state_finalize_on_height` fails with a non-not-found
storage error, yet the call swallows it and returns the continue signal
(`Ok(true)`) — the source's `if let Err(_) = block_header_result` catches
every error, not only `DBNotFoundErr`. -/
theorem claim_C8_counterexample :
    envC8.get_block_header_on_chain_by_height 80 5 = Except.error .other ∧
    set_state_finalize_on_height envC8 store0 5 0 80 = Except.ok (true, store0) :=
  ⟨rfl, rfl⟩

/-- **C8, amended.**  A not-found result on an optional lookup is expected
control flow yielding a defined no-op result and not an error.  In the
final-head update (`update_final_head_from_block`) any storage read failure
other than not-found propagates as an error and aborts the whole
transaction; in `set_state_finalize_on_height`, however, the block-header
height lookup treats ANY failure — not-found or otherwise — as "height not
present" and returns the continue signal without error. -/
theorem claim_C8_notfound_control_flow (env : Env) :
    (∀ (s : ChainStoreUpdate) (h : BlockHeader),
      env.get_block_header h.last_final_block = Except.error .dbNotFound →
      update_final_head_from_block env s h = Except.ok (none, s)) ∧
    (∀ (s : ChainStoreUpdate) (h : BlockHeader) (e : ChainError),
      env.get_block_header h.last_final_block = Except.error e → e ≠ .dbNotFound →
      update_final_head_from_block env s h = Except.error e) ∧
    (∀ (s : ChainStoreUpdate) (height : BlockHeight) (shard_id : ShardId)
        (sync_hash : CryptoHash) (e : ChainError),
      env.get_block_header_on_chain_by_height sync_hash height = Except.error e →
      set_state_finalize_on_height env s height shard_id sync_hash =
        Except.ok (true, s)) := by
  refine ⟨?_, ?_, ?_⟩
  · intro s h hnf
    simp only [update_final_head_from_block, hnf]
  · intro s h e he hne
    cases e
    · exact absurd rfl hne
    · simp only [update_final_head_from_block, he]
    · simp only [update_final_head_from_block, he]
  · intro s height shard_id sync_hash e he
    simp only [set_state_finalize_on_height, he]

/-- Witness for the amended C8 at concrete inputs: a not-found last-final
lookup is a no-op, a non-not-found last-final lookup propagates, and any
failing height lookup in the finalizer yields continue. -/
theorem claim_C8_notfound_control_flow_witness :
    update_final_head_from_block envC8 store0 hdrLF30 = Except.ok (none, store0) ∧
    update_final_head_from_block envC8 store0 hdrLF31 = Except.error .other ∧
    set_state_finalize_on_height envC8 store0 5 0 80 = Except.ok (true, store0) :=
  ⟨(claim_C8_notfound_control_flow envC8).1 store0 hdrLF30 rfl,
   (claim_C8_notfound_control_flow envC8).2.1 store0 hdrLF31 .other rfl (by decide),
   (claim_C8_notfound_control_flow envC8).2.2 store0 5 0 80 .other rfl⟩

/-! ## Commit Orchestrator (`postprocess_block`) -/

/-- `process_apply_chunk_result` (source lines 261-381): dispatch one
per-shard result by its tag. -/
def process_apply_chunk_result (env : Env) (s : ChainStoreUpdate) (block : Block)
    (result : ShardUpdateResult) (should_save_state_transition_data : Bool) :
    Except ChainError ChainStoreUpdate := do
  let block_hash := block.hash
  let prev_hash := block.header.prev_hash
  let height := block.header.height
  match result with
  | .NewChunk r => do
    let (outcome_root, outcome_paths) := env.compute_outcomes_proof r.apply_result.outcomes
    let shard_id := r.shard_uid.shard_id
    let epoch_id ← env.get_epoch_id_from_prev_block prev_hash
    let _protocol_version ← env.get_epoch_protocol_version epoch_id
    -- Save state root after applying transactions.
    let s := s.stage (.saveChunkExtra block_hash r.shard_uid
      { state_root := r.apply_result.new_root
        outcome_root := outcome_root
        validator_proposals := r.apply_result.validator_proposals
        gas_used := r.apply_result.total_gas_burnt
        gas_limit := r.gas_limit
        balance_burnt := r.apply_result.total_balance_burnt
        congestion_info := r.apply_result.congestion_info })
    let store_update ← env.save_flat_state_changes block_hash prev_hash height
      r.shard_uid r.apply_result.trie_changes.state_changes
    let s := s.stage (.mergeUpdate store_update)
    let s := s.stage (.saveTrieChanges r.apply_result.trie_changes)
    let s := s.stage (.saveOutgoingReceipt block_hash shard_id
      r.apply_result.outgoing_receipts)
    let s := s.stage (.saveOutcomesWithProofs block_hash shard_id
      r.apply_result.outcomes outcome_paths)
    let s :=
      if should_save_state_transition_data then
        s.stage (.saveStateTransitionData block_hash shard_id r.apply_result.proof
          r.apply_result.applied_receipts_hash)
      else s
    match r.resharding_results with
    | some resharding_results =>
      process_resharding_results env s block r.shard_uid resharding_results
    | none => Except.ok s
  | .OldChunk r => do
    -- The chunk is missing; carry the previous extra forward with the new root.
    let old_extra ← env.get_chunk_extra prev_hash r.shard_uid
    let new_extra := { old_extra with state_root := r.apply_result.new_root }
    let store_update ← env.save_flat_state_changes block_hash prev_hash height
      r.shard_uid r.apply_result.trie_changes.state_changes
    let s := s.stage (.mergeUpdate store_update)
    let s := s.stage (.saveChunkExtra block_hash r.shard_uid new_extra)
    let s := s.stage (.saveTrieChanges r.apply_result.trie_changes)
    let s :=
      if should_save_state_transition_data then
        s.stage (.saveStateTransitionData block_hash r.shard_uid.shard_id
          r.apply_result.proof r.apply_result.applied_receipts_hash)
      else s
    match r.resharding_results with
    | some resharding_config =>
      process_resharding_results env s block r.shard_uid resharding_config
    | none => Except.ok s
  | .Resharding r =>
    process_resharding_results env s block r.shard_uid
      (.ApplyReshardingResults r.results)

/-- `apply_chunk_postprocessing` (source lines 83-94). -/
def apply_chunk_postprocessing (env : Env) (block : Block)
    (should_save_state_transition_data : Bool) :
    ChainStoreUpdate → List ShardUpdateResult → Except ChainError ChainStoreUpdate
  | s, [] => Except.ok s
  | s, result :: rest => do
    let s ← process_apply_chunk_result env s block result should_save_state_transition_data
    apply_chunk_postprocessing env block should_save_state_transition_data s rest

/-- The `collect::<Result<Vec<_>, Error>>()` over the per-shard results in
`postprocess_block` (source lines 399-404): stops at the first error. -/
def collect_shard_results :
    List (ShardId × Except ChainError ShardUpdateResult) →
    Except ChainError (List ShardUpdateResult)
  | [] => Except.ok []
  | (_, .error e) :: _ => Except.error e
  | (_, .ok r) :: rest => do
    let rs ← collect_shard_results rest
    Except.ok (r :: rs)

/-- `postprocess_block` (source lines 391-485). -/
def postprocess_block (env : Env) (s : ChainStoreUpdate) (block : Block)
    (block_preprocess_info : BlockPreprocessInfo)
    (apply_chunks_results : List (ShardId × Except ChainError ShardUpdateResult))
    (should_save_state_transition_data : Bool) :
    Except ChainError (Option Tip × ChainStoreUpdate) := do
  let prev_hash := block.header.prev_hash
  let results ← collect_shard_results apply_chunks_results
  let s ← apply_chunk_postprocessing env block should_save_state_transition_data s results
  let s :=
    if !block_preprocess_info.is_caught_up then
      s.stage (.addBlockToCatchup prev_hash block.hash)
    else s
  let s := block_preprocess_info.incoming_receipts.foldl
    (fun s p => s.stage (.saveIncomingReceipt block.hash p.1 p.2)) s
  let s :=
    match block_preprocess_info.state_sync_info with
    | some info => s.stage (.addStateSyncInfo info)
    | none => s
  let s := s.stage (.saveBlockExtra block.hash block_preprocess_info.challenges_result)
  let s ← block_preprocess_info.challenged_blocks.foldlM
    (fun s bh => mark_block_as_challenged env s bh (some block.hash)) s
  let _ ← env.save_block_header block.header
  let s := s.stage (.saveBlockHeader block.header)
  let (_, s) ← update_header_head_if_not_challenged s block.header
  -- If block checks out, record validator proposals for given block.
  let last_final_block := block.header.last_final_block
  let last_finalized_height ←
    if last_final_block = 0 then
      Except.ok env.get_genesis_height
    else do
      let h ← env.get_block_header last_final_block
      Except.ok h.height
  let epoch_manager_update ← env.add_validator_proposals block.header last_finalized_height
  let s := s.stage (.mergeUpdate epoch_manager_update)
  -- Add validated block to the db, even if it's not the canonical fork.
  let s := s.stage (.saveBlock block)
  let _ ← env.inc_block_refcount prev_hash
  let s := s.stage (.incBlockRefcount prev_hash)
  -- Update the chain head if it's the new tip
  let (res, s) ← update_head env s block.header
  match res with
  | some _ => do
    -- On the epoch switch record the epoch light client block.
    let prev ← env.get_block_header block.header.prev_hash
    let prev_epoch_id := prev.epoch_id
    let s ←
      if block.header.epoch_id ≠ prev_epoch_id then
        if prev.last_final_block ≠ 0 then do
          let s := s.stage (.saveNextBlockHash prev.prev_hash prev.hash)
          let light_client_block ← env.create_light_client_block_view prev
          Except.ok (s.stage (.saveEpochLightClientBlock prev_epoch_id light_client_block))
        else Except.ok s
      else Except.ok s
    let _ ← env.get_shard_layout_from_prev_block prev.hash
    Except.ok (res, s)
  | none => Except.ok (res, s)

/-- Collecting per-shard results stops at the first error. -/
theorem collect_shard_results_first_error :
    ∀ (before : List (ShardId × Except ChainError ShardUpdateResult))
      (sid : ShardId) (e : ChainError)
      (after : List (ShardId × Except ChainError ShardUpdateResult)),
      (∀ p ∈ before, ∃ r, p.2 = Except.ok r) →
      collect_shard_results (before ++ (sid, Except.error e) :: after) =
        Except.error e := by
  intro before
  induction before with
  | nil => intro sid e after _; rfl
  | cons p rest ih =>
    intro sid e after hok
    obtain ⟨r, hr⟩ := hok p (List.mem_cons_self _ _)
    obtain ⟨psid, px⟩ := p
    simp only at hr
    subst hr
    simp only [List.cons_append, collect_shard_results, List.append_eq,
      ih sid e after (fun q hq => hok q (List.mem_cons_of_mem _ hq)),
      Bind.bind, Except.bind]

/-- **C4.** For every call to `postprocess_block`, if any per-shard result in
`apply_chunks_results` is an error, the call returns the first such error
before any per-shard state is staged into the store update: the theorem
holds for every environment (so the outcome is independent of every staging
collaborator), and the error return carries no staged transaction — a single
failing shard aborts the whole block's commit with no partial application of
any other shard's result. -/
theorem claim_C4_failing_shard_aborts (env : Env) (s : ChainStoreUpdate) (block : Block)
    (block_preprocess_info : BlockPreprocessInfo) (should_save : Bool)
    (before after : List (ShardId × Except ChainError ShardUpdateResult))
    (sid : ShardId) (e : ChainError)
    (hfirst : ∀ p ∈ before, ∃ r, p.2 = Except.ok r) :
    postprocess_block env s block block_preprocess_info
        (before ++ (sid, Except.error e) :: after) should_save = Except.error e := by
  simp only [postprocess_block,
    collect_shard_results_first_error before sid e after hfirst, Bind.bind, Except.bind]

def preEx : BlockPreprocessInfo :=
  { is_caught_up := true, state_sync_info := none, incoming_receipts := []
    challenges_result := 0, challenged_blocks := [] }

/-- Witness for C4: one successful shard result followed by a failing one;
the whole call returns the error. -/
theorem claim_C4_failing_shard_aborts_witness :
    postprocess_block envEx store0 blockEx preEx
        [(0, Except.ok (.Resharding ⟨uidParent, resultsEx⟩)),
         (1, Except.error .other)] true =
      Except.error .other :=
  claim_C4_failing_shard_aborts envEx store0 blockEx preEx true
    [(0, Except.ok (.Resharding ⟨uidParent, resultsEx⟩))] [] 1 .other
    (by
      intro p hp
      rw [List.mem_singleton] at hp
      subst hp
      exact ⟨_, rfl⟩)
